import Mathlib

/-!
# CHIP-8 interpreter core (`pkg/chip8/chip8.go`)

A shallow embedding of the Go package `chip8`: the machine record `Chip8`, the
constructor `NewChip8` and the step function `Cycle` with the helpers it calls.

Modelling conventions.

* `uint8` and `uint16` are `Fin 256` and `Fin 65536`; every arithmetic result is
  computed on `Nat` and reduced explicitly with `% 65536` (`toUint16`).
* A Go array `[n]T` is a function `Fin n → T`.  Indexing with a run-time value
  is bounds-checked exactly as the Go runtime does it: an index `i` with
  `n ≤ i` stops the method with `RuntimeError.indexOutOfRange i n`.
* The methods mutate the receiver in place, so a method that stops with a
  run-time error leaves behind whatever it had already written.  `Outcome`
  therefore carries the machine in both cases.
-/

namespace chip8

abbrev uint8 := Fin 256
abbrev uint16 := Fin 65536

/-- Conversion of a natural number to `uint16`, wrapping modulo `2^16`. -/
def toUint16 (n : Nat) : uint16 := ⟨n % 65536, Nat.mod_lt n (by decide)⟩

/-- The array literal `fontset` (`[...]uint8`, 80 entries). -/
def fontset : List uint8 :=
  [0xF0, 0x90, 0x90, 0x90, 0xF0, -- 0
   0x20, 0x60, 0x20, 0x20, 0x70, -- 1
   0xF0, 0x10, 0xF0, 0x80, 0xF0, -- 2
   0xF0, 0x10, 0xF0, 0x10, 0xF0, -- 3
   0x90, 0x90, 0xF0, 0x10, 0x10, -- 4
   0xF0, 0x80, 0xF0, 0x10, 0xF0, -- 5
   0xF0, 0x80, 0xF0, 0x90, 0xF0, -- 6
   0xF0, 0x10, 0x20, 0x40, 0x40, -- 7
   0xF0, 0x90, 0xF0, 0x90, 0xF0, -- 8
   0xF0, 0x90, 0xF0, 0x10, 0xF0, -- 9
   0xF0, 0x90, 0xF0, 0x90, 0x90, -- A
   0xE0, 0x90, 0xE0, 0x90, 0xE0, -- B
   0xF0, 0x80, 0x80, 0x80, 0xF0, -- C
   0xE0, 0x90, 0x90, 0x90, 0xE0, -- D
   0xF0, 0x80, 0xF0, 0x80, 0xF0, -- E
   0xF0, 0x80, 0xF0, 0x80, 0x80] -- F

/-- Opcode constant: clear screen. -/
def CLS : Nat := 0x00E0
/-- Opcode constant: return. -/
def RET : Nat := 0x00EE
/-- Leading nibble: jump to routine. -/
def SYS : Nat := 0x0
/-- Leading nibble: jump to location. -/
def JP : Nat := 0x1
/-- Leading nibble: call subroutine. -/
def CALL : Nat := 0x2
/-- Leading nibble: skip next instruction if Vx = kk. -/
def SE_VX_BYTE : Nat := 0x3
/-- Leading nibble: skip next instruction if Vx != kk. -/
def SNE : Nat := 0x4
/-- Leading nibble: skip next instruction if Vx = Vy. -/
def SE_VX_VY : Nat := 0x5
/-- Leading nibble: skip next instruction if Vx != Vy. -/
def SNE_VX_VY : Nat := 0x9

def AddressBitMask : Nat := 0x0FFF

/-- The machine record `type Chip8 struct`. -/
structure Chip8 where
  opcode : uint16
  memory : Fin 4096 → uint8
  graphics : Fin (64 * 32) → uint8
  registers : Fin 16 → uint8
  index : uint16
  programCounter : uint16
  delayTimer : uint8
  soundTimer : uint8
  stack : Fin 16 → uint16
  sp : uint16
  keys : Fin 16 → uint8

/-- Run-time errors of the Go runtime that the package can raise. -/
inductive RuntimeError where
  | indexOutOfRange (index length : Nat)
  deriving DecidableEq, Repr

/-- Result of running a method on a machine: it returned, or it stopped with a
run-time error; in both cases `c` is the machine as the method left it. -/
inductive Outcome where
  | ok (c : Chip8)
  | panicked (c : Chip8) (e : RuntimeError)

/-- Sequencing of statements: when the method so far has returned, run `f` on
the machine it left; a run-time error ends the method with the machine as it is. -/
def Outcome.andThen (r : Outcome) (f : Chip8 → Outcome) : Outcome :=
  match r with
  | Outcome.ok c => f c
  | Outcome.panicked c e => Outcome.panicked c e

/-- The zero value `new(Chip8)`. -/
def zeroChip8 : Chip8 :=
  { opcode := 0
    memory := fun _ => 0
    graphics := fun _ => 0
    registers := fun _ => 0
    index := 0
    programCounter := 0
    delayTimer := 0
    soundTimer := 0
    stack := fun _ => 0
    sp := 0
    keys := fun _ => 0 }

/-- `NewChip8`: zero machine, `programCounter = 0x200`, then the loop
`for idx, char := range fontset { machine.memory[idx] = char }`. -/
def NewChip8 : Chip8 :=
  let machine := { zeroChip8 with programCounter := toUint16 0x200 }
  { machine with
    memory := (List.finRange fontset.length).foldl
      (fun mem idx =>
        Function.update mem ⟨idx.val, Nat.lt_of_lt_of_le idx.isLt (by decide)⟩ (fontset.get idx))
      machine.memory }

/-- `incrementPC`: `c.programCounter += 2` on a `uint16`. -/
def incrementPC (c : Chip8) : Chip8 :=
  { c with programCounter := toUint16 (c.programCounter.val + 2) }

/-- `clearScreen`: `for idx := range c.graphics { c.graphics[idx] = 0 }`. -/
def clearScreen (c : Chip8) : Chip8 :=
  { c with
    graphics := (List.finRange (64 * 32)).foldl (fun g idx => Function.update g idx 0) c.graphics }

/-- `popStack`: `c.sp -= 1` (wrapping), then `c.programCounter = c.stack[c.sp]`. -/
def popStack (c : Chip8) : Outcome :=
  let c1 := { c with sp := toUint16 (c.sp.val + 65536 - 1) }
  if h : c1.sp.val < 16 then
    Outcome.ok { c1 with programCounter := c1.stack ⟨c1.sp.val, h⟩ }
  else
    Outcome.panicked c1 (RuntimeError.indexOutOfRange c1.sp.val 16)

/-- `callSubroutine`: `c.stack[c.sp] = c.programCounter`, `c.sp += 1`,
`c.programCounter = c.opcode & AddressBitMask`. -/
def callSubroutine (c : Chip8) : Outcome :=
  if h : c.sp.val < 16 then
    let c1 := { c with stack := Function.update c.stack ⟨c.sp.val, h⟩ c.programCounter }
    let c2 := { c1 with sp := toUint16 (c1.sp.val + 1) }
    Outcome.ok { c2 with programCounter := toUint16 (c2.opcode.val &&& AddressBitMask) }
  else
    Outcome.panicked c (RuntimeError.indexOutOfRange c.sp.val 16)

/-- `skipVxEqualByte`. -/
def skipVxEqualByte (c : Chip8) : Outcome :=
  let x := (c.opcode.val &&& 0x0F00) >>> 8
  if h : x < 16 then
    let r := (c.registers ⟨x, h⟩).val
    let c1 := if r = (c.opcode.val &&& 0x00FF) then incrementPC c else c
    Outcome.ok (incrementPC c1)
  else
    Outcome.panicked c (RuntimeError.indexOutOfRange x 16)

/-- `skipVxNotEqualByte`. -/
def skipVxNotEqualByte (c : Chip8) : Outcome :=
  let x := (c.opcode.val &&& 0x0F00) >>> 8
  if h : x < 16 then
    let r := (c.registers ⟨x, h⟩).val
    let c1 := if r ≠ (c.opcode.val &&& 0x00FF) then incrementPC c else c
    Outcome.ok (incrementPC c1)
  else
    Outcome.panicked c (RuntimeError.indexOutOfRange x 16)

/-- `skipVxEqualVy`. -/
def skipVxEqualVy (c : Chip8) : Outcome :=
  let x := (c.opcode.val &&& 0x0F00) >>> 8
  let y := (c.opcode.val &&& 0x00F0) >>> 4
  if hx : x < 16 then
    let rX := (c.registers ⟨x, hx⟩).val
    if hy : y < 16 then
      let rY := (c.registers ⟨y, hy⟩).val
      let c1 := if rX = rY then incrementPC c else c
      Outcome.ok (incrementPC c1)
    else
      Outcome.panicked c (RuntimeError.indexOutOfRange y 16)
  else
    Outcome.panicked c (RuntimeError.indexOutOfRange x 16)

/-- `skipVxNotEqualVy`. -/
def skipVxNotEqualVy (c : Chip8) : Outcome :=
  let x := (c.opcode.val &&& 0x0F00) >>> 8
  let y := (c.opcode.val &&& 0x00F0) >>> 4
  if hx : x < 16 then
    let rX := (c.registers ⟨x, hx⟩).val
    if hy : y < 16 then
      let rY := (c.registers ⟨y, hy⟩).val
      let c1 := if rX ≠ rY then incrementPC c else c
      Outcome.ok (incrementPC c1)
    else
      Outcome.panicked c (RuntimeError.indexOutOfRange y 16)
  else
    Outcome.panicked c (RuntimeError.indexOutOfRange x 16)

/-- The switch of `Cycle` on the leading nibble of the opcode just latched in `c`. -/
def dispatch (c : Chip8) : Outcome :=
  let mostSigBit := c.opcode.val >>> 12
  if mostSigBit = SYS then
    let r :=
      if c.opcode.val = CLS then Outcome.ok (clearScreen c)
      else if c.opcode.val = RET then popStack c
      else Outcome.ok c
    r.andThen (fun c1 => Outcome.ok (incrementPC c1))
  else if mostSigBit = JP then
    let addr := c.opcode.val &&& AddressBitMask
    Outcome.ok { c with programCounter := toUint16 addr }
  else if mostSigBit = CALL then callSubroutine c
  else if mostSigBit = SE_VX_BYTE then skipVxEqualByte c
  else if mostSigBit = SNE then skipVxNotEqualByte c
  else if mostSigBit = SE_VX_VY then skipVxEqualVy c
  else if mostSigBit = SNE_VX_VY then skipVxNotEqualVy c
  else Outcome.ok c

/-- `Cycle`: the fetch
`c.opcode = uint16(c.memory[c.programCounter])<<8 | uint16(c.memory[c.programCounter+1])`
(both indexings bounds-checked, `c.programCounter+1` wrapping in `uint16`),
followed by the switch on the leading nibble. -/
def Cycle (c : Chip8) : Outcome :=
  if h0 : c.programCounter.val < 4096 then
    if h1 : (toUint16 (c.programCounter.val + 1)).val < 4096 then
      let hi := (c.memory ⟨c.programCounter.val, h0⟩).val
      let lo := (c.memory ⟨(toUint16 (c.programCounter.val + 1)).val, h1⟩).val
      dispatch { c with opcode := toUint16 ((toUint16 (hi <<< 8)).val ||| lo) }
    else
      Outcome.panicked c (RuntimeError.indexOutOfRange (toUint16 (c.programCounter.val + 1)).val 4096)
  else
    Outcome.panicked c (RuntimeError.indexOutOfRange c.programCounter.val 4096)

/-! ## Vocabulary of the specification -/

/-- The two bytes at addresses `a` and `a + 1`, composed big-endian. -/
def wordAt (c : Chip8) (a : Nat) (h : a ≤ 4094) : Nat :=
  (c.memory ⟨a, by omega⟩).val * 256 + (c.memory ⟨a + 1, by omega⟩).val

/-- The opcode the next `Cycle` fetches: the two bytes at `programCounter` and
`programCounter + 1`, composed big-endian. -/
def fetched (c : Chip8) (hp : c.programCounter.val ≤ 4094) : Nat :=
  wordAt c c.programCounter.val hp

/-- The external driver calling `Cycle` `n` times in a row; it stops at the
first call that ends with a run-time error. -/
def runCycles : Nat → Chip8 → Outcome
  | 0, c => Outcome.ok c
  | n + 1, c => (Cycle c).andThen (runCycles n)

/-- Each of the next `n` cycles, as far as they return, fetches an opcode with
leading nibble 2 (a `2nnn` CALL). -/
def executesCalls : Nat → Chip8 → Bool
  | 0, _ => true
  | n + 1, c =>
    (if hp : c.programCounter.val ≤ 4094 then decide (fetched c hp / 4096 = 2) else false) &&
      (match Cycle c with
        | Outcome.ok c1 => executesCalls n c1
        | Outcome.panicked _ _ => true)

/-- The machine as a method left it, whether it returned or stopped. -/
def Outcome.machine : Outcome → Chip8
  | Outcome.ok c => c
  | Outcome.panicked c _ => c

/-- The instruction table of the specification (section 4.2): whether the 16-bit
value `op` matches one of its opcode patterns. -/
def inInstructionTable (op : Nat) : Bool :=
  match op / 4096 with
  | 0x0 => op == 0x00E0 || op == 0x00EE
  | 0x1 => true
  | 0x2 => true
  | 0x3 => true
  | 0x4 => true
  | 0x5 => op % 16 == 0
  | 0x6 => true
  | 0x7 => true
  | 0x8 => decide (op % 16 ≤ 7) || op % 16 == 0xE
  | 0x9 => op % 16 == 0
  | 0xA => true
  | 0xB => true
  | 0xC => true
  | 0xD => true
  | 0xE => op % 256 == 0x9E || op % 256 == 0xA1
  | 0xF => [0x07, 0x0A, 0x15, 0x18, 0x1E, 0x29, 0x33, 0x55, 0x65].contains (op % 256)
  | _ => false

/-! ## Concrete machines -/

/-- The machine `c` with byte `b` stored at address `a` (what a program loader does). -/
def poke (c : Chip8) (a : Fin 4096) (b : uint8) : Chip8 :=
  { c with memory := Function.update c.memory a b }

/-- A fresh machine holding `2345` (CALL 0x345) at 0x200. -/
def callDemo : Chip8 := poke (poke NewChip8 0x200 0x23) 0x201 0x45

/-- A fresh machine holding `2204` (CALL 0x204) at 0x200 and `00EE` (RET) at 0x204. -/
def roundTripDemo : Chip8 :=
  poke (poke (poke (poke NewChip8 0x200 0x22) 0x201 0x04) 0x204 0x00) 0x205 0xEE

/-- The machine `roundTripDemo` after its first cycle: inside the subroutine,
about to execute the RET at 0x204. -/
def retDemo : Chip8 :=
  { roundTripDemo with
    opcode := 0x2204
    stack := Function.update roundTripDemo.stack 0 0x200
    sp := 1
    programCounter := 0x204 }

/-- A fresh machine holding `2200` at 0x200: a CALL to itself. -/
def selfCallDemo : Chip8 := poke (poke NewChip8 0x200 0x22) 0x201 0x00

/-- The machine `selfCallDemo` with all sixteen stack cells in use. -/
def fullStackDemo : Chip8 :=
  { selfCallDemo with
    opcode := 0x2200
    stack := fun _ => 0x200
    sp := 16 }

/-- A fresh machine holding `00EE` (RET) at 0x200, with an empty stack. -/
def underflowDemo : Chip8 := poke (poke NewChip8 0x200 0x00) 0x201 0xEE

/-- A fresh machine holding `1ABC` (JP 0xABC) at 0x200. -/
def jumpDemo : Chip8 := poke (poke NewChip8 0x200 0x1A) 0x201 0xBC

/-- A fresh machine holding `3A00` (SE VA, 0x00) at 0x200; VA is 0. -/
def skipEqByteDemo : Chip8 := poke (poke NewChip8 0x200 0x3A) 0x201 0x00

/-- A fresh machine holding `4A07` (SNE VA, 0x07) at 0x200; VA is 0. -/
def skipNeByteDemo : Chip8 := poke (poke NewChip8 0x200 0x4A) 0x201 0x07

/-- A fresh machine holding `5330` (SE V3, V3) at 0x200, with V3 = 9. -/
def skipEqRegDemo : Chip8 :=
  { poke (poke NewChip8 0x200 0x53) 0x201 0x30 with
    registers := Function.update NewChip8.registers 3 9 }

/-- The machine `skipEqRegDemo` with `5331` in place of `5330`. -/
def skipEqRegNibbleDemo : Chip8 := poke skipEqRegDemo 0x201 0x31

/-- A fresh machine holding `9120` (SNE V1, V2) at 0x200, with V1 = 7 and V2 = 0. -/
def skipNeRegDemo : Chip8 :=
  { poke (poke NewChip8 0x200 0x91) 0x201 0x20 with
    registers := Function.update NewChip8.registers 1 7 }

/-- The machine `skipNeRegDemo` with `9127` in place of `9120`. -/
def skipNeRegNibbleDemo : Chip8 := poke skipNeRegDemo 0x201 0x27

/-- A fresh machine holding `00E0` (CLS) at 0x200, with every display cell lit. -/
def clearDemo : Chip8 :=
  { poke (poke NewChip8 0x200 0x00) 0x201 0xE0 with graphics := fun _ => 1 }

/-- A fresh machine holding `0123` at 0x200, a `0nnn` that is neither CLS nor RET. -/
def sysDemo : Chip8 := poke (poke NewChip8 0x200 0x01) 0x201 0x23

/-- A fresh machine holding `8008` at 0x200, a value outside the instruction table. -/
def unknownDemo : Chip8 := poke (poke NewChip8 0x200 0x80) 0x201 0x08

/-- A fresh machine holding `6A05` (LD VA, 0x05) at 0x200. -/
def loadDemo : Chip8 := poke (poke NewChip8 0x200 0x6A) 0x201 0x05

/-- A fresh machine holding `1201` (JP 0x201) at 0x200. -/
def oddJumpDemo : Chip8 := poke (poke NewChip8 0x200 0x12) 0x201 0x01

/-- A machine about to execute `3001` (SE V0, 0x01) at address 4092; V0 is 0. -/
def notTakenDemo : Chip8 :=
  { poke (poke NewChip8 4092 0x30) 4093 0x01 with programCounter := 4092 }

/-- A machine about to execute `3000` (SE V0, 0x00) at the last even address 4094. -/
def lastWordDemo : Chip8 :=
  { poke (poke NewChip8 4094 0x30) 4095 0x00 with programCounter := 4094 }

/-! ## Bit fields of an opcode -/

theorem shiftRight_and (a b i : Nat) : (a &&& b) >>> i = (a >>> i) &&& (b >>> i) := by
  apply Nat.eq_of_testBit_eq
  intro j
  simp only [Nat.testBit_shiftRight, Nat.testBit_and]

theorem nibble_x (op : Nat) : (op &&& 0x0F00) >>> 8 = op / 256 % 16 := by
  rw [shiftRight_and]
  have h : (0x0F00 >>> 8 : Nat) = 2 ^ 4 - 1 := by decide
  rw [h, Nat.and_pow_two_sub_one_eq_mod, Nat.shiftRight_eq_div_pow]

theorem nibble_y (op : Nat) : (op &&& 0x00F0) >>> 4 = op / 16 % 16 := by
  rw [shiftRight_and]
  have h : (0x00F0 >>> 4 : Nat) = 2 ^ 4 - 1 := by decide
  rw [h, Nat.and_pow_two_sub_one_eq_mod, Nat.shiftRight_eq_div_pow]

theorem low_byte (op : Nat) : op &&& 0x00FF = op % 256 :=
  Nat.and_pow_two_sub_one_eq_mod op 8

theorem low_address (op : Nat) : op &&& AddressBitMask = op % 4096 :=
  Nat.and_pow_two_sub_one_eq_mod op 12

theorem leading_nibble (op : Nat) : op >>> 12 = op / 4096 :=
  Nat.shiftRight_eq_div_pow op 12

theorem big_endian (hi lo : Nat) (h : lo < 256) : (hi <<< 8) ||| lo = hi * 256 + lo := by
  rw [Nat.shiftLeft_eq, Nat.mul_comm]
  exact (Nat.mul_add_lt_is_or (show lo < 2 ^ 8 from h) hi).symm

theorem fetched_lt (c : Chip8) (hp : c.programCounter.val ≤ 4094) : fetched c hp < 65536 := by
  unfold fetched wordAt
  have h1 := (c.memory ⟨c.programCounter.val, by omega⟩).isLt
  have h2 := (c.memory ⟨c.programCounter.val + 1, by omega⟩).isLt
  omega

theorem fetched_eq (c : Chip8) (hp : c.programCounter.val ≤ 4094) (p : Nat)
    (hpc : c.programCounter.val = p) (hp' : p ≤ 4094) :
    fetched c hp = wordAt c p hp' := by
  subst hpc
  rfl

theorem toUint16_val (n : Nat) : (toUint16 n).val = n % 65536 := rfl

/-! ## The fetch, and the cases of the switch -/

theorem Cycle_eq_dispatch (c : Chip8) (hp : c.programCounter.val ≤ 4094) :
    Cycle c = dispatch { c with opcode := ⟨fetched c hp, fetched_lt c hp⟩ } := by
  have h0 : c.programCounter.val < 4096 := by omega
  have hn : (toUint16 (c.programCounter.val + 1)).val = c.programCounter.val + 1 := by
    rw [toUint16_val]; omega
  have h1 : (toUint16 (c.programCounter.val + 1)).val < 4096 := by omega
  have hidx : (⟨(toUint16 (c.programCounter.val + 1)).val, h1⟩ : Fin 4096)
      = ⟨c.programCounter.val + 1, by omega⟩ := Fin.ext hn
  have key : toUint16 ((toUint16 ((c.memory ⟨c.programCounter.val, h0⟩).val <<< 8)).val
        ||| (c.memory ⟨(toUint16 (c.programCounter.val + 1)).val, h1⟩).val)
      = ⟨fetched c hp, fetched_lt c hp⟩ := by
    apply Fin.ext
    rw [hidx]
    have ha := (c.memory ⟨c.programCounter.val, h0⟩).isLt
    have hb := (c.memory ⟨c.programCounter.val + 1, by omega⟩).isLt
    have hs : (c.memory ⟨c.programCounter.val, h0⟩).val <<< 8
        = (c.memory ⟨c.programCounter.val, h0⟩).val * 256 := Nat.shiftLeft_eq _ 8
    have hm : (toUint16 ((c.memory ⟨c.programCounter.val, h0⟩).val <<< 8)).val
        = (c.memory ⟨c.programCounter.val, h0⟩).val <<< 8 := by
      rw [toUint16_val, hs]; omega
    rw [hm, toUint16_val, big_endian _ _ hb]
    show _ = fetched c hp
    unfold fetched wordAt
    omega
  unfold Cycle
  rw [dif_pos h0, dif_pos h1]
  dsimp only
  rw [key]

theorem dispatch_CALL (c : Chip8) (h : c.opcode.val / 4096 = 2) :
    dispatch c = callSubroutine c := by
  have h12 : c.opcode.val >>> 12 = 2 := by rw [leading_nibble, h]
  unfold dispatch
  simp [h12, SYS, JP, CALL]

theorem dispatch_RET (c : Chip8) (h : c.opcode.val = 0x00EE) :
    dispatch c = (popStack c).andThen (fun c1 => Outcome.ok (incrementPC c1)) := by
  have h12 : c.opcode.val >>> 12 = 0 := by rw [leading_nibble, h]
  unfold dispatch
  simp [h12, SYS, h, CLS, RET]

theorem Cycle_CALL (c : Chip8) (hsp : c.sp.val < 16) (hp : c.programCounter.val ≤ 4094)
    (h : fetched c hp / 4096 = 2) :
    Cycle c = Outcome.ok
      { c with
        opcode := ⟨fetched c hp, fetched_lt c hp⟩
        stack := Function.update c.stack ⟨c.sp.val, hsp⟩ c.programCounter
        sp := toUint16 (c.sp.val + 1)
        programCounter := toUint16 (fetched c hp % 4096) } := by
  rw [Cycle_eq_dispatch c hp, dispatch_CALL _ h]
  unfold callSubroutine
  simp only [dif_pos hsp, low_address]

theorem Cycle_CALL_full (c : Chip8) (hsp : ¬ c.sp.val < 16) (hp : c.programCounter.val ≤ 4094)
    (h : fetched c hp / 4096 = 2) :
    Cycle c = Outcome.panicked { c with opcode := ⟨fetched c hp, fetched_lt c hp⟩ }
      (RuntimeError.indexOutOfRange c.sp.val 16) := by
  rw [Cycle_eq_dispatch c hp, dispatch_CALL _ h]
  unfold callSubroutine
  simp only [dif_neg hsp]

theorem Cycle_RET (c : Chip8) (hp : c.programCounter.val ≤ 4094)
    (h : fetched c hp = 0x00EE) (hsp : (toUint16 (c.sp.val + 65536 - 1)).val < 16) :
    Cycle c = Outcome.ok
      { c with
        opcode := ⟨fetched c hp, fetched_lt c hp⟩
        sp := toUint16 (c.sp.val + 65536 - 1)
        programCounter :=
          toUint16 ((c.stack ⟨(toUint16 (c.sp.val + 65536 - 1)).val, hsp⟩).val + 2) } := by
  rw [Cycle_eq_dispatch c hp, dispatch_RET _ h]
  unfold popStack
  simp only [dif_pos hsp]
  rfl

theorem Cycle_RET_empty (c : Chip8) (hp : c.programCounter.val ≤ 4094)
    (h : fetched c hp = 0x00EE) (hsp : ¬ (toUint16 (c.sp.val + 65536 - 1)).val < 16) :
    Cycle c = Outcome.panicked
      { c with
        opcode := ⟨fetched c hp, fetched_lt c hp⟩
        sp := toUint16 (c.sp.val + 65536 - 1) }
      (RuntimeError.indexOutOfRange (toUint16 (c.sp.val + 65536 - 1)).val 16) := by
  rw [Cycle_eq_dispatch c hp, dispatch_RET _ h]
  unfold popStack
  simp only [dif_neg hsp]
  rfl

/-! ## Loops that store into an array -/

theorem foldl_update_of_not_mem {ι α β : Type} [DecidableEq α] (g : ι → α) (v : ι → β)
    (l : List ι) (m : α → β) (j : α) (hj : ∀ idx ∈ l, g idx ≠ j) :
    (l.foldl (fun m idx => Function.update m (g idx) (v idx)) m) j = m j := by
  induction l generalizing m with
  | nil => rfl
  | cons a t ih =>
    rw [List.foldl_cons, ih _ (fun idx hidx => hj idx (List.mem_cons_of_mem a hidx))]
    exact Function.update_noteq (Ne.symm (hj a (List.mem_cons_self a t))) _ _

theorem foldl_update_of_mem {ι α β : Type} [DecidableEq α] (g : ι → α) (v : ι → β)
    (hg : Function.Injective g) (l : List ι) (hl : l.Nodup) (m : α → β) (i : ι) (hi : i ∈ l) :
    (l.foldl (fun m idx => Function.update m (g idx) (v idx)) m) (g i) = v i := by
  induction l generalizing m with
  | nil => cases hi
  | cons a t ih =>
    rw [List.foldl_cons]
    rw [List.nodup_cons] at hl
    rcases List.mem_cons.mp hi with h | h
    · subst h
      rw [foldl_update_of_not_mem g v t _ (g i)
        (fun idx hidx heq => hl.1 (hg heq ▸ hidx))]
      exact Function.update_same _ _ _
    · exact ih hl.2 _ h

theorem NewChip8_memory_font (i : Fin 4096) (h : i.val < 80) :
    NewChip8.memory i = fontset.get ⟨i.val, h⟩ := by
  have hinj : Function.Injective
      (fun idx : Fin fontset.length =>
        (⟨idx.val, Nat.lt_of_lt_of_le idx.isLt (by decide)⟩ : Fin 4096)) := by
    intro a b hab
    exact Fin.ext (Fin.mk.inj hab)
  exact foldl_update_of_mem _ fontset.get hinj (List.finRange fontset.length)
    (List.nodup_finRange _) _ (⟨i.val, h⟩ : Fin fontset.length) (List.mem_finRange _)

theorem NewChip8_memory_rest (i : Fin 4096) (h : 80 ≤ i.val) :
    NewChip8.memory i = 0 := by
  have := foldl_update_of_not_mem
      (fun idx : Fin fontset.length =>
        (⟨idx.val, Nat.lt_of_lt_of_le idx.isLt (by decide)⟩ : Fin 4096))
      fontset.get (List.finRange fontset.length) (fun _ => (0 : uint8)) i
      (by
        intro idx _ heq
        have h1 : idx.val = i.val := congrArg Fin.val heq
        have h2 : idx.val < 80 := idx.isLt
        omega)
  exact this

/-! ## Construction -/

/-- C1: `NewChip8` returns a machine whose memory holds `fontset[i]` at every
address `i < 80` and `0` at every address `80 ≤ i < 4096`, whose registers, stack
cells, display cells, keys, `index`, `delayTimer` and `soundTimer` are all `0`,
whose `programCounter` is `0x200` and whose `sp` is `0`. -/
theorem NewChip8_initial_state :
    (∀ (i : Fin 4096) (h : i.val < 80), NewChip8.memory i = fontset.get ⟨i.val, h⟩) ∧
    (∀ i : Fin 4096, 80 ≤ i.val → (NewChip8.memory i).val = 0) ∧
    (∀ r, (NewChip8.registers r).val = 0) ∧
    (∀ s, (NewChip8.stack s).val = 0) ∧
    (∀ g, (NewChip8.graphics g).val = 0) ∧
    (∀ k, (NewChip8.keys k).val = 0) ∧
    NewChip8.index.val = 0 ∧
    NewChip8.delayTimer.val = 0 ∧
    NewChip8.soundTimer.val = 0 ∧
    NewChip8.programCounter.val = 0x200 ∧
    NewChip8.sp.val = 0 :=
  ⟨NewChip8_memory_font,
   fun i h => congrArg Fin.val (NewChip8_memory_rest i h),
   fun _ => rfl, fun _ => rfl, fun _ => rfl, fun _ => rfl, rfl, rfl, rfl, rfl, rfl⟩

/-- Witness for C1: address 7 holds the font byte `0x20`, address 0x200 holds 0. -/
theorem NewChip8_initial_state_witness :
    (NewChip8.memory 7).val = 0x20 ∧ (NewChip8.memory 0x200).val = 0 :=
  ⟨congrArg Fin.val (NewChip8_initial_state.1 7 (by decide)),
   NewChip8_initial_state.2.1 0x200 (by decide)⟩

/-! ## Subroutine call and return -/

/-- C2 (as the code has it): from a state with `sp < 16` and
`programCounter = p ≤ 4094` whose fetched opcode is `2nnn`, one `Cycle` returns,
stores `p` itself (the address of the call opcode, not yet advanced) in
`stack[sp]`, increments `sp` by 1 and sets `programCounter` to `nnn`. -/
theorem Cycle_call_pushes_unadvanced_pc (c : Chip8) (nnn : Nat)
    (hsp : c.sp.val < 16) (hp : c.programCounter.val ≤ 4094)
    (hnnn : nnn < 4096) (hop : fetched c hp = 0x2000 + nnn) :
    ∃ c', Cycle c = Outcome.ok c' ∧
      (c'.stack ⟨c.sp.val, hsp⟩).val = c.programCounter.val ∧
      c'.sp.val = c.sp.val + 1 ∧
      c'.programCounter.val = nnn := by
  refine ⟨_, Cycle_CALL c hsp hp (by omega), ?_, ?_, ?_⟩
  · simp
  · show (toUint16 (c.sp.val + 1)).val = _
    rw [toUint16_val]; omega
  · show (toUint16 (fetched c hp % 4096)).val = _
    rw [toUint16_val]; omega

/-- Witness for C2: `callDemo` (CALL 0x345 at 0x200, empty stack). -/
theorem Cycle_call_pushes_unadvanced_pc_witness :
    ∃ c', Cycle callDemo = Outcome.ok c' ∧
      (c'.stack ⟨callDemo.sp.val, by decide⟩).val = callDemo.programCounter.val ∧
      c'.sp.val = callDemo.sp.val + 1 ∧
      c'.programCounter.val = 0x345 :=
  Cycle_call_pushes_unadvanced_pc callDemo 0x345 (by decide) (by decide) (by decide) (by decide)

/-- Counterexample to C2 as stated: `callDemo` has `sp = 0 < 16`,
`programCounter = 0x200 ≤ 4094` and fetches `2345`; its `Cycle` returns with
`stack[0] = 0x200`, which is not `0x200 + 2`. -/
theorem Cycle_call_stack_cell_counterexample :
    callDemo.sp.val = 0 ∧ callDemo.programCounter.val = 0x200 ∧
    fetched callDemo (by decide) = 0x2000 + 0x345 ∧
    ∃ c', Cycle callDemo = Outcome.ok c' ∧
      (c'.stack 0).val = 0x200 ∧
      (c'.stack 0).val ≠ callDemo.programCounter.val + 2 :=
  ⟨by decide, by decide, by decide, _, rfl, by decide, by decide⟩

/-- C3 (as the code has it): from a state with `1 ≤ sp ≤ 16` and
`programCounter ≤ 4094` whose fetched opcode is `00EE`, one `Cycle` returns,
decrements `sp` by 1 and leaves `programCounter` equal to the popped value
`stack[sp - 1]` plus 2 (mod 2^16): the default advance is applied after the pop. -/
theorem Cycle_ret_pops_and_advances (c : Chip8)
    (hlo : 1 ≤ c.sp.val) (hhi : c.sp.val ≤ 16) (hp : c.programCounter.val ≤ 4094)
    (hop : fetched c hp = 0x00EE) :
    ∃ c', Cycle c = Outcome.ok c' ∧
      c'.sp.val = c.sp.val - 1 ∧
      c'.programCounter.val = ((c.stack ⟨c.sp.val - 1, by omega⟩).val + 2) % 65536 := by
  have hs : (toUint16 (c.sp.val + 65536 - 1)).val = c.sp.val - 1 := by
    rw [toUint16_val]; omega
  have hsp : (toUint16 (c.sp.val + 65536 - 1)).val < 16 := by omega
  have hidx : (⟨(toUint16 (c.sp.val + 65536 - 1)).val, hsp⟩ : Fin 16)
      = ⟨c.sp.val - 1, by omega⟩ := Fin.ext hs
  refine ⟨_, Cycle_RET c hp hop hsp, hs, ?_⟩
  show (toUint16 _).val = _
  rw [toUint16_val, hidx]

/-- Witness for C3: `retDemo` (`sp = 1`, `stack[0] = 0x200`, RET at 0x204). -/
theorem Cycle_ret_pops_and_advances_witness :
    ∃ c', Cycle retDemo = Outcome.ok c' ∧
      c'.sp.val = retDemo.sp.val - 1 ∧
      c'.programCounter.val = ((retDemo.stack ⟨retDemo.sp.val - 1, by decide⟩).val + 2) % 65536 :=
  Cycle_ret_pops_and_advances retDemo (by decide) (by decide) (by decide) (by decide)

/-- Counterexample to C3 as stated: `retDemo` has `sp = 1`, `programCounter = 0x204`
and fetches `00EE`; the value on top of its stack is `stack[0] = 0x200`, and its
`Cycle` returns with `programCounter = 0x202`, not `0x200`. -/
theorem Cycle_ret_program_counter_counterexample :
    retDemo.sp.val = 1 ∧ retDemo.programCounter.val = 0x204 ∧
    fetched retDemo (by decide) = 0x00EE ∧
    (retDemo.stack 0).val = 0x200 ∧
    ∃ c', Cycle retDemo = Outcome.ok c' ∧
      c'.sp.val = 0 ∧
      c'.programCounter.val = 0x202 ∧
      c'.programCounter.val ≠ (retDemo.stack 0).val :=
  ⟨by decide, by decide, by decide, by decide, _, rfl, by decide, by decide, by decide⟩

/-- C4: CALL then RET is a round trip.  From a state with `sp < 16` and
`programCounter = p ≤ 4094` whose opcode at `p` is `2nnn` with `nnn ≤ 4094`, the
two bytes at `nnn` being `00EE`, two consecutive `Cycle`s both return and leave
`programCounter = p + 2` and `sp` at its value before the call. -/
theorem call_then_ret_round_trip (c : Chip8) (nnn : Nat)
    (hsp : c.sp.val < 16) (hp : c.programCounter.val ≤ 4094)
    (hnnn : nnn ≤ 4094) (hop : fetched c hp = 0x2000 + nnn)
    (hret : wordAt c nnn hnnn = 0x00EE) :
    ∃ c1 c2, Cycle c = Outcome.ok c1 ∧ Cycle c1 = Outcome.ok c2 ∧
      c2.programCounter.val = c.programCounter.val + 2 ∧
      c2.sp = c.sp := by
  have hcall := Cycle_CALL c hsp hp (by omega)
  generalize hc1 : ({ c with
        opcode := ⟨fetched c hp, fetched_lt c hp⟩
        stack := Function.update c.stack ⟨c.sp.val, hsp⟩ c.programCounter
        sp := toUint16 (c.sp.val + 1)
        programCounter := toUint16 (fetched c hp % 4096) } : Chip8) = c1 at hcall
  have hpc1 : c1.programCounter.val = nnn := by
    rw [← hc1]; show (toUint16 _).val = _; rw [toUint16_val]; omega
  have hp1 : c1.programCounter.val ≤ 4094 := by omega
  have hmem : c1.memory = c.memory := by rw [← hc1]
  have hsp1 : c1.sp.val = c.sp.val + 1 := by
    rw [← hc1]; show (toUint16 _).val = _; rw [toUint16_val]; omega
  have hstack : c1.stack = Function.update c.stack ⟨c.sp.val, hsp⟩ c.programCounter := by
    rw [← hc1]
  have hop1 : fetched c1 hp1 = 0x00EE := by
    rw [fetched_eq c1 hp1 nnn hpc1 hnnn, ← hret]
    unfold wordAt
    rw [hmem]
  have hs : (toUint16 (c1.sp.val + 65536 - 1)).val = c.sp.val := by
    rw [toUint16_val]; omega
  have hlt : (toUint16 (c1.sp.val + 65536 - 1)).val < 16 := by omega
  have hidx : (⟨(toUint16 (c1.sp.val + 65536 - 1)).val, hlt⟩ : Fin 16) = ⟨c.sp.val, hsp⟩ :=
    Fin.ext hs
  refine ⟨c1, _, hcall, Cycle_RET c1 hp1 hop1 hlt, ?_, ?_⟩
  · show (toUint16 _).val = _
    rw [toUint16_val, hidx, hstack, Function.update_same]
    omega
  · exact Fin.ext hs

/-- Witness for C4: `roundTripDemo` (CALL 0x204 at 0x200, RET at 0x204). -/
theorem call_then_ret_round_trip_witness :
    ∃ c1 c2, Cycle roundTripDemo = Outcome.ok c1 ∧ Cycle c1 = Outcome.ok c2 ∧
      c2.programCounter.val = roundTripDemo.programCounter.val + 2 ∧
      c2.sp = roundTripDemo.sp :=
  call_then_ret_round_trip roundTripDemo 0x204 (by decide) (by decide)
    (by decide) (by decide) (by decide)

/-! ## Stack limits -/

theorem executesCalls_succ (n : Nat) (c : Chip8) (h : executesCalls (n + 1) c = true) :
    (∃ hp : c.programCounter.val ≤ 4094, fetched c hp / 4096 = 2) ∧
    ∀ c1, Cycle c = Outcome.ok c1 → executesCalls n c1 = true := by
  unfold executesCalls at h
  rw [Bool.and_eq_true] at h
  obtain ⟨h1, h2⟩ := h
  constructor
  · by_cases hp : c.programCounter.val ≤ 4094
    · rw [dif_pos hp] at h1
      exact ⟨hp, of_decide_eq_true h1⟩
    · rw [dif_neg hp] at h1
      cases h1
  · intro c1 hc1
    rw [hc1] at h2
    exact h2

theorem runCycles_calls (n : Nat) : ∀ c : Chip8, c.sp.val + n ≤ 16 →
    executesCalls n c = true →
    ∃ c', runCycles n c = Outcome.ok c' ∧ c'.sp.val = c.sp.val + n := by
  induction n with
  | zero => intro c _ _; exact ⟨c, rfl, rfl⟩
  | succ n ih =>
    intro c hsp hex
    obtain ⟨⟨hp, hop⟩, hnext⟩ := executesCalls_succ n c hex
    have hlt : c.sp.val < 16 := by omega
    have hcall := Cycle_CALL c hlt hp hop
    have hsp1 : (toUint16 (c.sp.val + 1)).val = c.sp.val + 1 := by
      rw [toUint16_val]; omega
    obtain ⟨c', hrun, hsp'⟩ := ih _ (by show (toUint16 _).val + n ≤ 16; omega) (hnext _ hcall)
    refine ⟨c', ?_, ?_⟩
    · show (Cycle c).andThen (runCycles n) = _
      rw [hcall]
      exact hrun
    · rw [hsp']
      show (toUint16 _).val + n = _
      omega

/-- C5: from a machine with an empty stack (`sp = 0`, as `NewChip8` returns it,
whatever program is loaded), sixteen consecutive `Cycle`s that each execute a
`2nnn` CALL all return, and end with `sp = 16`; and any `Cycle` that executes a
`2nnn` when `sp = 16` stops with the run-time error of indexing the 16-cell stack
at 16, leaving memory, display, registers, `index`, `programCounter`, timers, stack,
`sp = 16` and keys as they were (only the `opcode` field holds the fetched CALL). -/
theorem sixteen_calls_then_overflow :
    (∀ c : Chip8, c.sp.val = 0 → executesCalls 16 c = true →
      ∃ c', runCycles 16 c = Outcome.ok c' ∧ c'.sp.val = 16) ∧
    (∀ (c : Chip8) (hp : c.programCounter.val ≤ 4094), c.sp.val = 16 →
      fetched c hp / 4096 = 2 →
      Cycle c = Outcome.panicked { c with opcode := ⟨fetched c hp, fetched_lt c hp⟩ }
        (RuntimeError.indexOutOfRange 16 16)) := by
  constructor
  · intro c hsp hex
    obtain ⟨c', hrun, hsp'⟩ := runCycles_calls 16 c (by omega) hex
    exact ⟨c', hrun, by omega⟩
  · intro c hp hsp hop
    rw [Cycle_CALL_full c (by omega) hp hop, hsp]

/-- Witness for C5: `selfCallDemo` (a fresh machine with CALL 0x200 at 0x200) runs
sixteen cycles to `sp = 16`, and `fullStackDemo` stops on the next CALL. -/
theorem sixteen_calls_then_overflow_witness :
    (∃ c', runCycles 16 selfCallDemo = Outcome.ok c' ∧ c'.sp.val = 16) ∧
    Cycle fullStackDemo = Outcome.panicked
      { fullStackDemo with opcode := ⟨fetched fullStackDemo (by decide), fetched_lt _ _⟩ }
      (RuntimeError.indexOutOfRange 16 16) :=
  ⟨sixteen_calls_then_overflow.1 selfCallDemo rfl rfl,
   sixteen_calls_then_overflow.2 fullStackDemo (by decide) rfl (by decide)⟩

/-- C6: from a state with `sp = 0` whose fetched opcode is `00EE`, `Cycle` does
not return: after `sp -= 1` has wrapped to 65535 it stops with the run-time error
of indexing the 16-cell stack at 65535, so no successor state is returned and
`programCounter` is never loaded from outside the stack. -/
theorem Cycle_ret_on_empty_stack_fails (c : Chip8) (hsp : c.sp.val = 0)
    (hp : c.programCounter.val ≤ 4094) (hop : fetched c hp = 0x00EE) :
    Cycle c = Outcome.panicked
        { c with opcode := ⟨fetched c hp, fetched_lt c hp⟩, sp := toUint16 65535 }
        (RuntimeError.indexOutOfRange 65535 16) ∧
    ∀ c', Cycle c ≠ Outcome.ok c' := by
  have hs : (toUint16 (c.sp.val + 65536 - 1)).val = 65535 := by
    rw [toUint16_val]; omega
  have hsp' : c.sp.val + 65536 - 1 = 65535 := by omega
  have h := Cycle_RET_empty c hp hop (by omega)
  rw [hsp'] at h
  refine ⟨h, ?_⟩
  intro c' hc'
  rw [h] at hc'
  cases hc'

/-- Witness for C6: `underflowDemo` (a fresh machine with RET at 0x200). -/
theorem Cycle_ret_on_empty_stack_fails_witness :
    Cycle underflowDemo = Outcome.panicked
        { underflowDemo with
          opcode := ⟨fetched underflowDemo (by decide), fetched_lt _ _⟩, sp := toUint16 65535 }
        (RuntimeError.indexOutOfRange 65535 16) ∧
    ∀ c', Cycle underflowDemo ≠ Outcome.ok c' :=
  Cycle_ret_on_empty_stack_fails underflowDemo (by decide) (by decide) (by decide)

/-! ## Jump and skips -/

theorem dispatch_JP (c : Chip8) (h : c.opcode.val / 4096 = 1) :
    dispatch c = Outcome.ok { c with programCounter := toUint16 (c.opcode.val % 4096) } := by
  have h12 : c.opcode.val >>> 12 = 1 := by rw [leading_nibble, h]
  unfold dispatch
  simp [h12, SYS, JP, low_address]

theorem dispatch_SE_VX_BYTE (c : Chip8) (h : c.opcode.val / 4096 = 3) :
    dispatch c = skipVxEqualByte c := by
  have h12 : c.opcode.val >>> 12 = 3 := by rw [leading_nibble, h]
  unfold dispatch
  simp [h12, SYS, JP, CALL, SE_VX_BYTE]

theorem dispatch_SNE (c : Chip8) (h : c.opcode.val / 4096 = 4) :
    dispatch c = skipVxNotEqualByte c := by
  have h12 : c.opcode.val >>> 12 = 4 := by rw [leading_nibble, h]
  unfold dispatch
  simp [h12, SYS, JP, CALL, SE_VX_BYTE, SNE]

theorem dispatch_SE_VX_VY (c : Chip8) (h : c.opcode.val / 4096 = 5) :
    dispatch c = skipVxEqualVy c := by
  have h12 : c.opcode.val >>> 12 = 5 := by rw [leading_nibble, h]
  unfold dispatch
  simp [h12, SYS, JP, CALL, SE_VX_BYTE, SNE, SE_VX_VY]

theorem skipVxEqualByte_eq (c : Chip8) (x kk : Nat) (hx : x < 16)
    (hxv : c.opcode.val / 256 % 16 = x) (hkk : c.opcode.val % 256 = kk) :
    skipVxEqualByte c = Outcome.ok
      (incrementPC (if (c.registers ⟨x, hx⟩).val = kk then incrementPC c else c)) := by
  subst hxv hkk
  unfold skipVxEqualByte
  simp only [nibble_x, low_byte, dif_pos hx]

theorem skipVxNotEqualByte_eq (c : Chip8) (x kk : Nat) (hx : x < 16)
    (hxv : c.opcode.val / 256 % 16 = x) (hkk : c.opcode.val % 256 = kk) :
    skipVxNotEqualByte c = Outcome.ok
      (incrementPC (if (c.registers ⟨x, hx⟩).val ≠ kk then incrementPC c else c)) := by
  subst hxv hkk
  unfold skipVxNotEqualByte
  simp only [nibble_x, low_byte, dif_pos hx]

theorem skipVxEqualVy_eq (c : Chip8) (x y : Nat) (hx : x < 16) (hy : y < 16)
    (hxv : c.opcode.val / 256 % 16 = x) (hyv : c.opcode.val / 16 % 16 = y) :
    skipVxEqualVy c = Outcome.ok
      (incrementPC
        (if (c.registers ⟨x, hx⟩).val = (c.registers ⟨y, hy⟩).val then incrementPC c else c)) := by
  subst hxv hyv
  unfold skipVxEqualVy
  simp only [nibble_x, nibble_y, dif_pos hx, dif_pos hy]

theorem incrementPC_val (c : Chip8) :
    (incrementPC c).programCounter.val = (c.programCounter.val + 2) % 65536 := rfl

theorem skip_programCounter (c : Chip8) (P : Prop) [Decidable P]
    (hp : c.programCounter.val ≤ 4094) :
    (incrementPC (if P then incrementPC c else c)).programCounter.val =
      if P then c.programCounter.val + 4 else c.programCounter.val + 2 := by
  by_cases h : P
  · rw [if_pos h, if_pos h, incrementPC_val, incrementPC_val]; omega
  · rw [if_neg h, if_neg h, incrementPC_val]; omega

theorem skip_registers (c : Chip8) (P : Prop) [Decidable P] :
    (incrementPC (if P then incrementPC c else c)).registers = c.registers := by
  by_cases h : P
  · rw [if_pos h]; rfl
  · rw [if_neg h]; rfl

/-- C7: from a state with `programCounter = p ≤ 4094` whose fetched opcode is
`1nnn`, one `Cycle` returns with `programCounter` exactly `nnn` (no `+2` added)
and with memory, registers, `index`, stack, `sp`, display, timers and keys
unchanged. -/
theorem Cycle_jump (c : Chip8) (nnn : Nat) (hp : c.programCounter.val ≤ 4094)
    (hnnn : nnn < 4096) (hop : fetched c hp = 0x1000 + nnn) :
    ∃ c', Cycle c = Outcome.ok c' ∧
      c'.programCounter.val = nnn ∧
      c'.memory = c.memory ∧ c'.registers = c.registers ∧ c'.index = c.index ∧
      c'.stack = c.stack ∧ c'.sp = c.sp ∧ c'.graphics = c.graphics ∧
      c'.delayTimer = c.delayTimer ∧ c'.soundTimer = c.soundTimer ∧ c'.keys = c.keys := by
  have hd := dispatch_JP { c with opcode := ⟨fetched c hp, fetched_lt c hp⟩ }
    (by show fetched c hp / 4096 = 1; omega)
  refine ⟨_, (Cycle_eq_dispatch c hp).trans hd, ?_, rfl, rfl, rfl, rfl, rfl, rfl, rfl, rfl, rfl⟩
  show (toUint16 (fetched c hp % 4096)).val = nnn
  rw [toUint16_val]; omega

/-- Witness for C7: `jumpDemo` (JP 0xABC at 0x200). -/
theorem Cycle_jump_witness :
    ∃ c', Cycle jumpDemo = Outcome.ok c' ∧
      c'.programCounter.val = 0xABC ∧
      c'.memory = jumpDemo.memory ∧ c'.registers = jumpDemo.registers ∧
      c'.index = jumpDemo.index ∧ c'.stack = jumpDemo.stack ∧ c'.sp = jumpDemo.sp ∧
      c'.graphics = jumpDemo.graphics ∧ c'.delayTimer = jumpDemo.delayTimer ∧
      c'.soundTimer = jumpDemo.soundTimer ∧ c'.keys = jumpDemo.keys :=
  Cycle_jump jumpDemo 0xABC (by decide) (by decide) (by decide)

/-- C8: from a state with `programCounter = p ≤ 4094` whose fetched opcode is
`3xkk`, one `Cycle` returns with `programCounter = p + 4` if `registers[x] = kk`
and `p + 2` otherwise (neither wraps, as `p ≤ 4094`), and changes no register. -/
theorem Cycle_skip_if_equal_byte (c : Chip8) (x kk : Nat)
    (hp : c.programCounter.val ≤ 4094) (hx : x < 16) (hkk : kk < 256)
    (hop : fetched c hp = 0x3000 + x * 256 + kk) :
    ∃ c', Cycle c = Outcome.ok c' ∧
      c'.programCounter.val =
        (if (c.registers ⟨x, hx⟩).val = kk then c.programCounter.val + 4
         else c.programCounter.val + 2) ∧
      c'.registers = c.registers := by
  have hd := dispatch_SE_VX_BYTE { c with opcode := ⟨fetched c hp, fetched_lt c hp⟩ }
    (by show fetched c hp / 4096 = 3; omega)
  have hs := skipVxEqualByte_eq { c with opcode := ⟨fetched c hp, fetched_lt c hp⟩ } x kk hx
    (by show fetched c hp / 256 % 16 = x; omega) (by show fetched c hp % 256 = kk; omega)
  refine ⟨_, ((Cycle_eq_dispatch c hp).trans hd).trans hs, ?_, ?_⟩
  · exact skip_programCounter { c with opcode := ⟨fetched c hp, fetched_lt c hp⟩ } _ hp
  · exact skip_registers { c with opcode := ⟨fetched c hp, fetched_lt c hp⟩ } _

/-- Witness for C8: `skipEqByteDemo` (SE VA, 0x00 at 0x200 with VA = 0) skips. -/
theorem Cycle_skip_if_equal_byte_witness :
    ∃ c', Cycle skipEqByteDemo = Outcome.ok c' ∧
      c'.programCounter.val =
        (if (skipEqByteDemo.registers ⟨10, by decide⟩).val = 0
         then skipEqByteDemo.programCounter.val + 4
         else skipEqByteDemo.programCounter.val + 2) ∧
      c'.registers = skipEqByteDemo.registers :=
  Cycle_skip_if_equal_byte skipEqByteDemo 10 0 (by decide) (by decide) (by decide) (by decide)

/-- C9: from a state with `programCounter = p ≤ 4094` whose fetched opcode is
`4xkk`, one `Cycle` returns with `programCounter = p + 4` if `registers[x] ≠ kk`
and `p + 2` otherwise (neither wraps, as `p ≤ 4094`), and changes no register. -/
theorem Cycle_skip_if_not_equal_byte (c : Chip8) (x kk : Nat)
    (hp : c.programCounter.val ≤ 4094) (hx : x < 16) (hkk : kk < 256)
    (hop : fetched c hp = 0x4000 + x * 256 + kk) :
    ∃ c', Cycle c = Outcome.ok c' ∧
      c'.programCounter.val =
        (if (c.registers ⟨x, hx⟩).val ≠ kk then c.programCounter.val + 4
         else c.programCounter.val + 2) ∧
      c'.registers = c.registers := by
  have hd := dispatch_SNE { c with opcode := ⟨fetched c hp, fetched_lt c hp⟩ }
    (by show fetched c hp / 4096 = 4; omega)
  have hs := skipVxNotEqualByte_eq { c with opcode := ⟨fetched c hp, fetched_lt c hp⟩ } x kk hx
    (by show fetched c hp / 256 % 16 = x; omega) (by show fetched c hp % 256 = kk; omega)
  refine ⟨_, ((Cycle_eq_dispatch c hp).trans hd).trans hs, ?_, ?_⟩
  · exact skip_programCounter { c with opcode := ⟨fetched c hp, fetched_lt c hp⟩ } _ hp
  · exact skip_registers { c with opcode := ⟨fetched c hp, fetched_lt c hp⟩ } _

/-- Witness for C9: `skipNeByteDemo` (SNE VA, 0x07 at 0x200 with VA = 0) skips. -/
theorem Cycle_skip_if_not_equal_byte_witness :
    ∃ c', Cycle skipNeByteDemo = Outcome.ok c' ∧
      c'.programCounter.val =
        (if (skipNeByteDemo.registers ⟨10, by decide⟩).val ≠ 7
         then skipNeByteDemo.programCounter.val + 4
         else skipNeByteDemo.programCounter.val + 2) ∧
      c'.registers = skipNeByteDemo.registers :=
  Cycle_skip_if_not_equal_byte skipNeByteDemo 10 7 (by decide) (by decide) (by decide) (by decide)

/-- C10: from a state with `programCounter = p ≤ 4094` whose fetched opcode is
`5xy0`, one `Cycle` returns with `programCounter = p + 4` if
`registers[x] = registers[y]` and `p + 2` otherwise (neither wraps, as
`p ≤ 4094`); in particular, when `x = y` it always skips. -/
theorem Cycle_skip_if_registers_equal (c : Chip8) (x y : Nat)
    (hp : c.programCounter.val ≤ 4094) (hx : x < 16) (hy : y < 16)
    (hop : fetched c hp = 0x5000 + x * 256 + y * 16) :
    ∃ c', Cycle c = Outcome.ok c' ∧
      c'.programCounter.val =
        (if (c.registers ⟨x, hx⟩).val = (c.registers ⟨y, hy⟩).val
         then c.programCounter.val + 4 else c.programCounter.val + 2) ∧
      (x = y → c'.programCounter.val = c.programCounter.val + 4) := by
  have hd := dispatch_SE_VX_VY { c with opcode := ⟨fetched c hp, fetched_lt c hp⟩ }
    (by show fetched c hp / 4096 = 5; omega)
  have hs := skipVxEqualVy_eq { c with opcode := ⟨fetched c hp, fetched_lt c hp⟩ } x y hx hy
    (by show fetched c hp / 256 % 16 = x; omega) (by show fetched c hp / 16 % 16 = y; omega)
  have hpc := skip_programCounter { c with opcode := ⟨fetched c hp, fetched_lt c hp⟩ }
    ((c.registers ⟨x, hx⟩).val = (c.registers ⟨y, hy⟩).val) hp
  refine ⟨_, ((Cycle_eq_dispatch c hp).trans hd).trans hs, hpc, ?_⟩
  intro hxy
  subst hxy
  rw [hpc, if_pos rfl]

/-- Witness for C10: `skipEqRegDemo` (SE V3, V3 at 0x200 with V3 = 9) skips. -/
theorem Cycle_skip_if_registers_equal_witness :
    ∃ c', Cycle skipEqRegDemo = Outcome.ok c' ∧
      c'.programCounter.val =
        (if (skipEqRegDemo.registers ⟨3, by decide⟩).val
            = (skipEqRegDemo.registers ⟨3, by decide⟩).val
         then skipEqRegDemo.programCounter.val + 4
         else skipEqRegDemo.programCounter.val + 2) ∧
      ((3 : Nat) = 3 → c'.programCounter.val = skipEqRegDemo.programCounter.val + 4) :=
  Cycle_skip_if_registers_equal skipEqRegDemo 3 3 (by decide) (by decide) (by decide) (by decide)

theorem dispatch_SNE_VX_VY (c : Chip8) (h : c.opcode.val / 4096 = 9) :
    dispatch c = skipVxNotEqualVy c := by
  have h12 : c.opcode.val >>> 12 = 9 := by rw [leading_nibble, h]
  unfold dispatch
  simp [h12, SYS, JP, CALL, SE_VX_BYTE, SNE, SE_VX_VY, SNE_VX_VY]

theorem skipVxNotEqualVy_eq (c : Chip8) (x y : Nat) (hx : x < 16) (hy : y < 16)
    (hxv : c.opcode.val / 256 % 16 = x) (hyv : c.opcode.val / 16 % 16 = y) :
    skipVxNotEqualVy c = Outcome.ok
      (incrementPC
        (if (c.registers ⟨x, hx⟩).val ≠ (c.registers ⟨y, hy⟩).val then incrementPC c else c)) := by
  subst hxv hyv
  unfold skipVxNotEqualVy
  simp only [nibble_x, nibble_y, dif_pos hx, dif_pos hy]

/-- C11: from a state with `programCounter = p ≤ 4094` whose fetched opcode is
`9xy0`, one `Cycle` returns with `programCounter = p + 4` if
`registers[x] ≠ registers[y]` and `p + 2` otherwise (neither wraps, as
`p ≤ 4094`); in particular, when `x = y` it never skips. -/
theorem Cycle_skip_if_registers_differ (c : Chip8) (x y : Nat)
    (hp : c.programCounter.val ≤ 4094) (hx : x < 16) (hy : y < 16)
    (hop : fetched c hp = 0x9000 + x * 256 + y * 16) :
    ∃ c', Cycle c = Outcome.ok c' ∧
      c'.programCounter.val =
        (if (c.registers ⟨x, hx⟩).val ≠ (c.registers ⟨y, hy⟩).val
         then c.programCounter.val + 4 else c.programCounter.val + 2) ∧
      (x = y → c'.programCounter.val = c.programCounter.val + 2) := by
  have hd := dispatch_SNE_VX_VY { c with opcode := ⟨fetched c hp, fetched_lt c hp⟩ }
    (by show fetched c hp / 4096 = 9; omega)
  have hs := skipVxNotEqualVy_eq { c with opcode := ⟨fetched c hp, fetched_lt c hp⟩ } x y hx hy
    (by show fetched c hp / 256 % 16 = x; omega) (by show fetched c hp / 16 % 16 = y; omega)
  have hpc := skip_programCounter { c with opcode := ⟨fetched c hp, fetched_lt c hp⟩ }
    ((c.registers ⟨x, hx⟩).val ≠ (c.registers ⟨y, hy⟩).val) hp
  refine ⟨_, ((Cycle_eq_dispatch c hp).trans hd).trans hs, hpc, ?_⟩
  intro hxy
  subst hxy
  rw [hpc, if_neg (fun h => h rfl)]

/-- Witness for C11: `skipNeRegDemo` (SNE V1, V2 at 0x200 with V1 = 7, V2 = 0). -/
theorem Cycle_skip_if_registers_differ_witness :
    ∃ c', Cycle skipNeRegDemo = Outcome.ok c' ∧
      c'.programCounter.val =
        (if (skipNeRegDemo.registers ⟨1, by decide⟩).val
            ≠ (skipNeRegDemo.registers ⟨2, by decide⟩).val
         then skipNeRegDemo.programCounter.val + 4
         else skipNeRegDemo.programCounter.val + 2) ∧
      ((1 : Nat) = 2 → c'.programCounter.val = skipNeRegDemo.programCounter.val + 2) :=
  Cycle_skip_if_registers_differ skipNeRegDemo 1 2 (by decide) (by decide) (by decide) (by decide)

/-! ## Clear screen and the opcode latch -/

theorem dispatch_CLS (c : Chip8) (h : c.opcode.val = 0x00E0) :
    dispatch c = Outcome.ok (incrementPC (clearScreen c)) := by
  have h12 : c.opcode.val >>> 12 = 0 := by rw [leading_nibble, h]
  unfold dispatch
  simp [h12, SYS, h, CLS, Outcome.andThen]

theorem clearScreen_graphics (c : Chip8) (g : Fin (64 * 32)) :
    (clearScreen c).graphics g = 0 := by
  have h := foldl_update_of_mem (fun idx : Fin (64 * 32) => idx) (fun _ => (0 : uint8))
    (fun _ _ h => h) (List.finRange (64 * 32)) (List.nodup_finRange _) c.graphics g
    (List.mem_finRange g)
  unfold clearScreen
  dsimp only at h ⊢
  exact h

/-- C12: from a state with `programCounter = p ≤ 4094` whose fetched opcode is
`00E0`, whatever the display held, one `Cycle` returns with all 2048 display
cells equal to 0, `programCounter = p + 2`, and memory, registers, `index`,
stack, `sp`, timers and keys unchanged. -/
theorem Cycle_clear_screen (c : Chip8) (hp : c.programCounter.val ≤ 4094)
    (hop : fetched c hp = 0x00E0) :
    ∃ c', Cycle c = Outcome.ok c' ∧
      (∀ g : Fin (64 * 32), (c'.graphics g).val = 0) ∧
      c'.programCounter.val = c.programCounter.val + 2 ∧
      c'.memory = c.memory ∧ c'.registers = c.registers ∧ c'.index = c.index ∧
      c'.stack = c.stack ∧ c'.sp = c.sp ∧
      c'.delayTimer = c.delayTimer ∧ c'.soundTimer = c.soundTimer ∧ c'.keys = c.keys := by
  have hd := dispatch_CLS { c with opcode := ⟨fetched c hp, fetched_lt c hp⟩ } hop
  refine ⟨_, (Cycle_eq_dispatch c hp).trans hd, ?_, ?_, rfl, rfl, rfl, rfl, rfl, rfl, rfl, rfl⟩
  · intro g
    exact congrArg Fin.val
      (clearScreen_graphics { c with opcode := ⟨fetched c hp, fetched_lt c hp⟩ } g)
  · show (toUint16 (c.programCounter.val + 2)).val = _
    rw [toUint16_val]; omega

/-- Witness for C12: `clearDemo` (CLS at 0x200, every display cell lit). -/
theorem Cycle_clear_screen_witness :
    ∃ c', Cycle clearDemo = Outcome.ok c' ∧
      (∀ g : Fin (64 * 32), (c'.graphics g).val = 0) ∧
      c'.programCounter.val = clearDemo.programCounter.val + 2 ∧
      c'.memory = clearDemo.memory ∧ c'.registers = clearDemo.registers ∧
      c'.index = clearDemo.index ∧ c'.stack = clearDemo.stack ∧ c'.sp = clearDemo.sp ∧
      c'.delayTimer = clearDemo.delayTimer ∧ c'.soundTimer = clearDemo.soundTimer ∧
      c'.keys = clearDemo.keys :=
  Cycle_clear_screen clearDemo (by decide) (by decide)

/-! ## Every case of the switch -/

theorem decoded_x_lt (op : Nat) : (op &&& 0x0F00) >>> 8 < 16 := by
  rw [nibble_x]; omega

theorem decoded_y_lt (op : Nat) : (op &&& 0x00F0) >>> 4 < 16 := by
  rw [nibble_y]; omega

theorem skipVxEqualByte_shape (c : Chip8) :
    skipVxEqualByte c = Outcome.ok (incrementPC c) ∨
    skipVxEqualByte c = Outcome.ok (incrementPC (incrementPC c)) := by
  unfold skipVxEqualByte
  simp only [dif_pos (decoded_x_lt c.opcode.val)]
  split
  · exact Or.inr rfl
  · exact Or.inl rfl

theorem skipVxNotEqualByte_shape (c : Chip8) :
    skipVxNotEqualByte c = Outcome.ok (incrementPC c) ∨
    skipVxNotEqualByte c = Outcome.ok (incrementPC (incrementPC c)) := by
  unfold skipVxNotEqualByte
  simp only [dif_pos (decoded_x_lt c.opcode.val)]
  split
  · exact Or.inr rfl
  · exact Or.inl rfl

theorem skipVxEqualVy_shape (c : Chip8) :
    skipVxEqualVy c = Outcome.ok (incrementPC c) ∨
    skipVxEqualVy c = Outcome.ok (incrementPC (incrementPC c)) := by
  unfold skipVxEqualVy
  simp only [dif_pos (decoded_x_lt c.opcode.val), dif_pos (decoded_y_lt c.opcode.val)]
  split
  · exact Or.inr rfl
  · exact Or.inl rfl

theorem skipVxNotEqualVy_shape (c : Chip8) :
    skipVxNotEqualVy c = Outcome.ok (incrementPC c) ∨
    skipVxNotEqualVy c = Outcome.ok (incrementPC (incrementPC c)) := by
  unfold skipVxNotEqualVy
  simp only [dif_pos (decoded_x_lt c.opcode.val), dif_pos (decoded_y_lt c.opcode.val)]
  split
  · exact Or.inr rfl
  · exact Or.inl rfl

theorem dispatch_SYS_other (c : Chip8) (h : c.opcode.val / 4096 = 0)
    (hcls : c.opcode.val ≠ 0x00E0) (hret : c.opcode.val ≠ 0x00EE) :
    dispatch c = Outcome.ok (incrementPC c) := by
  have h12 : c.opcode.val >>> 12 = 0 := by rw [leading_nibble, h]
  unfold dispatch
  simp [h12, SYS, CLS, RET, hcls, hret, Outcome.andThen]

theorem dispatch_no_case (c : Chip8) (h0 : c.opcode.val / 4096 ≠ 0)
    (h1 : c.opcode.val / 4096 ≠ 1) (h2 : c.opcode.val / 4096 ≠ 2)
    (h3 : c.opcode.val / 4096 ≠ 3) (h4 : c.opcode.val / 4096 ≠ 4)
    (h5 : c.opcode.val / 4096 ≠ 5) (h9 : c.opcode.val / 4096 ≠ 9) :
    dispatch c = Outcome.ok c := by
  unfold dispatch
  simp [leading_nibble, SYS, JP, CALL, SE_VX_BYTE, SNE, SE_VX_VY, SNE_VX_VY,
    h0, h1, h2, h3, h4, h5, h9]

theorem clearScreen_eq (c : Chip8) : clearScreen c = { c with graphics := fun _ => 0 } := by
  have h : (clearScreen c).graphics = fun _ => 0 := funext (clearScreen_graphics c)
  unfold clearScreen at h ⊢
  dsimp only at h ⊢
  rw [h]

/-- The seven shapes the switch of `Cycle` can take. -/
theorem dispatch_shape (c : Chip8) :
    (c.opcode.val = 0x00E0 ∧
      dispatch c = Outcome.ok (incrementPC { c with graphics := fun _ => 0 })) ∨
    (c.opcode.val = 0x00EE ∧
      dispatch c = (popStack c).andThen (fun c1 => Outcome.ok (incrementPC c1))) ∨
    (c.opcode.val / 4096 = 0 ∧ c.opcode.val ≠ 0x00E0 ∧ c.opcode.val ≠ 0x00EE ∧
      dispatch c = Outcome.ok (incrementPC c)) ∨
    (c.opcode.val / 4096 = 1 ∧
      dispatch c = Outcome.ok { c with programCounter := toUint16 (c.opcode.val % 4096) }) ∨
    (c.opcode.val / 4096 = 2 ∧ dispatch c = callSubroutine c) ∨
    ((c.opcode.val / 4096 = 3 ∨ c.opcode.val / 4096 = 4 ∨ c.opcode.val / 4096 = 5 ∨
        c.opcode.val / 4096 = 9) ∧
      (dispatch c = Outcome.ok (incrementPC c) ∨
        dispatch c = Outcome.ok (incrementPC (incrementPC c)))) ∨
    (c.opcode.val / 4096 ≠ 0 ∧ c.opcode.val / 4096 ≠ 1 ∧ c.opcode.val / 4096 ≠ 2 ∧
      c.opcode.val / 4096 ≠ 3 ∧ c.opcode.val / 4096 ≠ 4 ∧ c.opcode.val / 4096 ≠ 5 ∧
      c.opcode.val / 4096 ≠ 9 ∧ dispatch c = Outcome.ok c) := by
  by_cases h0 : c.opcode.val / 4096 = 0
  · by_cases hcls : c.opcode.val = 0x00E0
    · exact Or.inl ⟨hcls, (dispatch_CLS c hcls).trans (by rw [clearScreen_eq])⟩
    · by_cases hret : c.opcode.val = 0x00EE
      · exact Or.inr (Or.inl ⟨hret, dispatch_RET c hret⟩)
      · exact Or.inr (Or.inr (Or.inl ⟨h0, hcls, hret, dispatch_SYS_other c h0 hcls hret⟩))
  by_cases h1 : c.opcode.val / 4096 = 1
  · exact Or.inr (Or.inr (Or.inr (Or.inl ⟨h1, dispatch_JP c h1⟩)))
  by_cases h2 : c.opcode.val / 4096 = 2
  · exact Or.inr (Or.inr (Or.inr (Or.inr (Or.inl ⟨h2, dispatch_CALL c h2⟩))))
  by_cases h3 : c.opcode.val / 4096 = 3
  · refine Or.inr (Or.inr (Or.inr (Or.inr (Or.inr (Or.inl ⟨Or.inl h3, ?_⟩)))))
    rw [dispatch_SE_VX_BYTE c h3]; exact skipVxEqualByte_shape c
  by_cases h4 : c.opcode.val / 4096 = 4
  · refine Or.inr (Or.inr (Or.inr (Or.inr (Or.inr (Or.inl ⟨Or.inr (Or.inl h4), ?_⟩)))))
    rw [dispatch_SNE c h4]; exact skipVxNotEqualByte_shape c
  by_cases h5 : c.opcode.val / 4096 = 5
  · refine Or.inr (Or.inr (Or.inr (Or.inr (Or.inr (Or.inl ⟨Or.inr (Or.inr (Or.inl h5)), ?_⟩)))))
    rw [dispatch_SE_VX_VY c h5]; exact skipVxEqualVy_shape c
  by_cases h9 : c.opcode.val / 4096 = 9
  · refine Or.inr (Or.inr (Or.inr (Or.inr (Or.inr (Or.inl ⟨Or.inr (Or.inr (Or.inr h9)), ?_⟩)))))
    rw [dispatch_SNE_VX_VY c h9]; exact skipVxNotEqualVy_shape c
  exact Or.inr (Or.inr (Or.inr (Or.inr (Or.inr (Or.inr
    ⟨h0, h1, h2, h3, h4, h5, h9, dispatch_no_case c h0 h1 h2 h3 h4 h5 h9⟩)))))

theorem popStack_frame (c : Chip8) :
    ((popStack c).andThen (fun c1 => Outcome.ok (incrementPC c1))).machine.opcode = c.opcode ∧
    ((popStack c).andThen (fun c1 => Outcome.ok (incrementPC c1))).machine.memory = c.memory ∧
    ((popStack c).andThen (fun c1 => Outcome.ok (incrementPC c1))).machine.registers = c.registers ∧
    ((popStack c).andThen (fun c1 => Outcome.ok (incrementPC c1))).machine.index = c.index ∧
    ((popStack c).andThen (fun c1 => Outcome.ok (incrementPC c1))).machine.graphics = c.graphics ∧
    ((popStack c).andThen (fun c1 => Outcome.ok (incrementPC c1))).machine.delayTimer = c.delayTimer ∧
    ((popStack c).andThen (fun c1 => Outcome.ok (incrementPC c1))).machine.soundTimer = c.soundTimer ∧
    ((popStack c).andThen (fun c1 => Outcome.ok (incrementPC c1))).machine.keys = c.keys := by
  unfold popStack
  dsimp only
  split <;> simp only [Outcome.andThen, Outcome.machine, incrementPC, and_self]

theorem callSubroutine_frame (c : Chip8) :
    (callSubroutine c).machine.opcode = c.opcode ∧
    (callSubroutine c).machine.memory = c.memory ∧
    (callSubroutine c).machine.registers = c.registers ∧
    (callSubroutine c).machine.index = c.index ∧
    (callSubroutine c).machine.graphics = c.graphics ∧
    (callSubroutine c).machine.delayTimer = c.delayTimer ∧
    (callSubroutine c).machine.soundTimer = c.soundTimer ∧
    (callSubroutine c).machine.keys = c.keys := by
  unfold callSubroutine
  split <;> simp only [Outcome.machine, and_self]

/-- What no case of the switch writes: the opcode latch, memory, registers,
`index`, timers and keys, whether the case returns or stops. -/
theorem dispatch_frame (c : Chip8) :
    (dispatch c).machine.opcode = c.opcode ∧
    (dispatch c).machine.memory = c.memory ∧
    (dispatch c).machine.registers = c.registers ∧
    (dispatch c).machine.index = c.index ∧
    (dispatch c).machine.delayTimer = c.delayTimer ∧
    (dispatch c).machine.soundTimer = c.soundTimer ∧
    (dispatch c).machine.keys = c.keys := by
  rcases dispatch_shape c with ⟨_, h⟩ | ⟨_, h⟩ | ⟨_, _, _, h⟩ | ⟨_, h⟩ | ⟨_, h⟩ | ⟨_, h | h⟩ |
    ⟨_, _, _, _, _, _, _, h⟩
  · rw [h]; exact ⟨rfl, rfl, rfl, rfl, rfl, rfl, rfl⟩
  · rw [h]
    obtain ⟨a, b, c1, d, _, e, f, g⟩ := popStack_frame c
    exact ⟨a, b, c1, d, e, f, g⟩
  · rw [h]; exact ⟨rfl, rfl, rfl, rfl, rfl, rfl, rfl⟩
  · rw [h]; exact ⟨rfl, rfl, rfl, rfl, rfl, rfl, rfl⟩
  · rw [h]
    obtain ⟨a, b, c1, d, _, e, f, g⟩ := callSubroutine_frame c
    exact ⟨a, b, c1, d, e, f, g⟩
  · rw [h]; exact ⟨rfl, rfl, rfl, rfl, rfl, rfl, rfl⟩
  · rw [h]; exact ⟨rfl, rfl, rfl, rfl, rfl, rfl, rfl⟩
  · rw [h]; exact ⟨rfl, rfl, rfl, rfl, rfl, rfl, rfl⟩

/-- Outside the fetch range `Cycle` stops before it has written anything. -/
theorem Cycle_machine_of_not_fetch (c : Chip8) (hp : ¬ c.programCounter.val ≤ 4094) :
    (Cycle c).machine = c := by
  unfold Cycle
  by_cases h0 : c.programCounter.val < 4096
  · have h1 : ¬ (toUint16 (c.programCounter.val + 1)).val < 4096 := by
      rw [toUint16_val]; omega
    rw [dif_pos h0, dif_neg h1]
    rfl
  · rw [dif_neg h0]
    rfl

/-- C13: from a state with `programCounter = p ≤ 4094`, the machine one `Cycle`
leaves (whether the instruction returns or stops) has in its `opcode` field
`memory[p] * 256 + memory[p + 1]`, the two bytes at `p` composed big-endian,
with `p` and `memory` those before the step. -/
theorem Cycle_latches_big_endian_opcode (c : Chip8) (hp : c.programCounter.val ≤ 4094) :
    (Cycle c).machine.opcode.val =
      (c.memory ⟨c.programCounter.val, Nat.lt_of_le_of_lt hp (by decide)⟩).val * 256
        + (c.memory ⟨c.programCounter.val + 1,
            Nat.succ_lt_succ (Nat.lt_of_le_of_lt hp (by decide))⟩).val := by
  rw [Cycle_eq_dispatch c hp,
    (dispatch_frame { c with opcode := ⟨fetched c hp, fetched_lt c hp⟩ }).1]
  rfl

/-- Witness for C13: `callDemo` holds `0x23`, `0x45` at 0x200 and latches `0x2345`. -/
theorem Cycle_latches_big_endian_opcode_witness :
    (Cycle callDemo).machine.opcode.val = 0x23 * 256 + 0x45 := by
  have h := Cycle_latches_big_endian_opcode callDemo (by decide)
  exact h

/-! ## Opcodes the switch has no case for -/

theorem Cycle_no_case (c : Chip8) (hp : c.programCounter.val ≤ 4094)
    (h0 : fetched c hp / 4096 ≠ 0) (h1 : fetched c hp / 4096 ≠ 1)
    (h2 : fetched c hp / 4096 ≠ 2) (h3 : fetched c hp / 4096 ≠ 3)
    (h4 : fetched c hp / 4096 ≠ 4) (h5 : fetched c hp / 4096 ≠ 5)
    (h9 : fetched c hp / 4096 ≠ 9) :
    Cycle c = Outcome.ok { c with opcode := ⟨fetched c hp, fetched_lt c hp⟩ } :=
  (Cycle_eq_dispatch c hp).trans
    (dispatch_no_case { c with opcode := ⟨fetched c hp, fetched_lt c hp⟩ } h0 h1 h2 h3 h4 h5 h9)

theorem Cycle_SYS_other (c : Chip8) (hp : c.programCounter.val ≤ 4094)
    (h0 : fetched c hp / 4096 = 0) (hcls : fetched c hp ≠ 0x00E0)
    (hret : fetched c hp ≠ 0x00EE) :
    Cycle c = Outcome.ok (incrementPC { c with opcode := ⟨fetched c hp, fetched_lt c hp⟩ }) :=
  (Cycle_eq_dispatch c hp).trans
    (dispatch_SYS_other { c with opcode := ⟨fetched c hp, fetched_lt c hp⟩ } h0 hcls hret)

theorem Cycle_SE_VX_VY (c : Chip8) (hp : c.programCounter.val ≤ 4094)
    (h5 : fetched c hp / 4096 = 5) :
    Cycle c = Outcome.ok (incrementPC
      (if (c.registers ⟨fetched c hp / 256 % 16, Nat.mod_lt _ (by decide)⟩).val
          = (c.registers ⟨fetched c hp / 16 % 16, Nat.mod_lt _ (by decide)⟩).val
       then incrementPC { c with opcode := ⟨fetched c hp, fetched_lt c hp⟩ }
       else { c with opcode := ⟨fetched c hp, fetched_lt c hp⟩ })) :=
  ((Cycle_eq_dispatch c hp).trans
    (dispatch_SE_VX_VY { c with opcode := ⟨fetched c hp, fetched_lt c hp⟩ } h5)).trans
    (skipVxEqualVy_eq { c with opcode := ⟨fetched c hp, fetched_lt c hp⟩ } _ _
      (Nat.mod_lt _ (by decide)) (Nat.mod_lt _ (by decide)) rfl rfl)

theorem Cycle_SNE_VX_VY (c : Chip8) (hp : c.programCounter.val ≤ 4094)
    (h9 : fetched c hp / 4096 = 9) :
    Cycle c = Outcome.ok (incrementPC
      (if (c.registers ⟨fetched c hp / 256 % 16, Nat.mod_lt _ (by decide)⟩).val
          ≠ (c.registers ⟨fetched c hp / 16 % 16, Nat.mod_lt _ (by decide)⟩).val
       then incrementPC { c with opcode := ⟨fetched c hp, fetched_lt c hp⟩ }
       else { c with opcode := ⟨fetched c hp, fetched_lt c hp⟩ })) :=
  ((Cycle_eq_dispatch c hp).trans
    (dispatch_SNE_VX_VY { c with opcode := ⟨fetched c hp, fetched_lt c hp⟩ } h9)).trans
    (skipVxNotEqualVy_eq { c with opcode := ⟨fetched c hp, fetched_lt c hp⟩ } _ _
      (Nat.mod_lt _ (by decide)) (Nat.mod_lt _ (by decide)) rfl rfl)

theorem skip_frame (c : Chip8) (P : Prop) [Decidable P] :
    (incrementPC (if P then incrementPC c else c)).memory = c.memory ∧
    (incrementPC (if P then incrementPC c else c)).registers = c.registers ∧
    (incrementPC (if P then incrementPC c else c)).index = c.index ∧
    (incrementPC (if P then incrementPC c else c)).stack = c.stack ∧
    (incrementPC (if P then incrementPC c else c)).sp = c.sp ∧
    (incrementPC (if P then incrementPC c else c)).graphics = c.graphics ∧
    (incrementPC (if P then incrementPC c else c)).delayTimer = c.delayTimer ∧
    (incrementPC (if P then incrementPC c else c)).soundTimer = c.soundTimer ∧
    (incrementPC (if P then incrementPC c else c)).keys = c.keys := by
  by_cases h : P
  · rw [if_pos h]; exact ⟨rfl, rfl, rfl, rfl, rfl, rfl, rfl, rfl, rfl⟩
  · rw [if_neg h]; exact ⟨rfl, rfl, rfl, rfl, rfl, rfl, rfl, rfl, rfl⟩

/-- The leading nibbles under which a value can miss the instruction table. -/
theorem leading_nibble_of_not_inInstructionTable (op : Nat) (hlt : op < 65536)
    (h : inInstructionTable op = false) :
    (op / 4096 = 0 ∧ op ≠ 0x00E0 ∧ op ≠ 0x00EE) ∨ op / 4096 = 5 ∨ op / 4096 = 9 ∨
      op / 4096 = 8 ∨ op / 4096 = 14 ∨ op / 4096 = 15 := by
  have hk : op / 4096 < 16 := by omega
  unfold inInstructionTable at h
  generalize hkk : op / 4096 = k at h hk ⊢
  interval_cases k <;> simp at h ⊢
  exact h

/-- C14 (as the code has it): from a state with `programCounter = p ≤ 4094` whose
fetched value matches no instruction of the table, one `Cycle` returns and
leaves memory, registers, `index`, stack, `sp`, display, timers and keys
unchanged; `programCounter` becomes `p + 2` for `0nnn`, is set as by the
register-compare skips for `5xyn` and `9xyn` (`p + 4` or `p + 2`), and stays `p`
for the leading nibbles 8, E and F, for which the switch has no case. -/
theorem Cycle_outside_instruction_table (c : Chip8) (hp : c.programCounter.val ≤ 4094)
    (hun : inInstructionTable (fetched c hp) = false) :
    ∃ c', Cycle c = Outcome.ok c' ∧
      (c'.memory = c.memory ∧ c'.registers = c.registers ∧ c'.index = c.index ∧
        c'.stack = c.stack ∧ c'.sp = c.sp ∧ c'.graphics = c.graphics ∧
        c'.delayTimer = c.delayTimer ∧ c'.soundTimer = c.soundTimer ∧ c'.keys = c.keys) ∧
      (fetched c hp / 4096 = 0 → c'.programCounter.val = c.programCounter.val + 2) ∧
      (fetched c hp / 4096 = 5 → c'.programCounter.val =
        if (c.registers ⟨fetched c hp / 256 % 16, Nat.mod_lt _ (by decide)⟩).val
            = (c.registers ⟨fetched c hp / 16 % 16, Nat.mod_lt _ (by decide)⟩).val
        then c.programCounter.val + 4 else c.programCounter.val + 2) ∧
      (fetched c hp / 4096 = 9 → c'.programCounter.val =
        if (c.registers ⟨fetched c hp / 256 % 16, Nat.mod_lt _ (by decide)⟩).val
            ≠ (c.registers ⟨fetched c hp / 16 % 16, Nat.mod_lt _ (by decide)⟩).val
        then c.programCounter.val + 4 else c.programCounter.val + 2) ∧
      (fetched c hp / 4096 = 8 ∨ fetched c hp / 4096 = 14 ∨ fetched c hp / 4096 = 15 →
        c'.programCounter = c.programCounter) := by
  rcases leading_nibble_of_not_inInstructionTable _ (fetched_lt c hp) hun with
    ⟨h0, hcls, hret⟩ | h5 | h9 | h8 | hE | hF
  · refine ⟨_, Cycle_SYS_other c hp h0 hcls hret,
      ⟨rfl, rfl, rfl, rfl, rfl, rfl, rfl, rfl, rfl⟩, ?_, ?_, ?_, ?_⟩
    · intro _
      show (toUint16 (c.programCounter.val + 2)).val = _
      rw [toUint16_val]; omega
    · intro h; omega
    · intro h; omega
    · intro h; omega
  · refine ⟨_, Cycle_SE_VX_VY c hp h5,
      skip_frame { c with opcode := ⟨fetched c hp, fetched_lt c hp⟩ } _, ?_, ?_, ?_, ?_⟩
    · intro h; omega
    · intro _
      exact skip_programCounter { c with opcode := ⟨fetched c hp, fetched_lt c hp⟩ } _ hp
    · intro h; omega
    · intro h; omega
  · refine ⟨_, Cycle_SNE_VX_VY c hp h9,
      skip_frame { c with opcode := ⟨fetched c hp, fetched_lt c hp⟩ } _, ?_, ?_, ?_, ?_⟩
    · intro h; omega
    · intro h; omega
    · intro _
      exact skip_programCounter { c with opcode := ⟨fetched c hp, fetched_lt c hp⟩ } _ hp
    · intro h; omega
  all_goals
    refine ⟨_, Cycle_no_case c hp (by omega) (by omega) (by omega) (by omega) (by omega)
      (by omega) (by omega), ⟨rfl, rfl, rfl, rfl, rfl, rfl, rfl, rfl, rfl⟩, ?_, ?_, ?_, ?_⟩
    · intro h; omega
    · intro h; omega
    · intro h; omega
    · intro _; rfl

/-- Witness for C14: `sysDemo` (`0123` at 0x200) is outside the table and advances by 2. -/
theorem Cycle_outside_instruction_table_witness :
    inInstructionTable (fetched sysDemo (by decide)) = false ∧
    ∃ c', Cycle sysDemo = Outcome.ok c' ∧
      c'.programCounter.val = sysDemo.programCounter.val + 2 := by
  obtain ⟨c', h, _, h0, _⟩ := Cycle_outside_instruction_table sysDemo (by decide) (by decide)
  exact ⟨by decide, c', h, h0 (by decide)⟩

set_option maxRecDepth 4096 in
/-- Counterexample to C14 as stated: `8008` and `5331` match no instruction of the
table; `unknownDemo` (`8008` at 0x200) returns from its `Cycle` with
`programCounter` still `0x200`, and `skipEqRegNibbleDemo` (`5331` at 0x200, where
V3 = V3) returns with `programCounter = 0x204`; neither is `0x202`. -/
theorem Cycle_outside_instruction_table_counterexample :
    (inInstructionTable 0x8008 = false ∧ unknownDemo.programCounter.val = 0x200 ∧
      fetched unknownDemo (by decide) = 0x8008 ∧
      ∃ c', Cycle unknownDemo = Outcome.ok c' ∧ c'.programCounter.val = 0x200 ∧
        c'.programCounter.val ≠ unknownDemo.programCounter.val + 2) ∧
    (inInstructionTable 0x5331 = false ∧ skipEqRegNibbleDemo.programCounter.val = 0x200 ∧
      fetched skipEqRegNibbleDemo (by decide) = 0x5331 ∧
      ∃ c', Cycle skipEqRegNibbleDemo = Outcome.ok c' ∧ c'.programCounter.val = 0x204 ∧
        c'.programCounter.val ≠ skipEqRegNibbleDemo.programCounter.val + 2) :=
  ⟨⟨by decide, by decide, by decide, _, rfl, by decide, by decide⟩,
   ⟨by decide, by decide, by decide, _, rfl, by decide, by decide⟩⟩

/-- C15 (as the code has it): the switch of `Cycle` has no case for the leading
nibble 6.  From a state with `programCounter = p ≤ 4094` whose fetched opcode is
`6xkk`, one `Cycle` returns with every register and `programCounter` as they
were; only the `opcode` field has changed. -/
theorem Cycle_load_byte_is_not_executed (c : Chip8) (x kk : Nat)
    (hp : c.programCounter.val ≤ 4094) (hx : x < 16) (hkk : kk < 256)
    (hop : fetched c hp = 0x6000 + x * 256 + kk) :
    Cycle c = Outcome.ok { c with opcode := ⟨fetched c hp, fetched_lt c hp⟩ } ∧
    ∃ c', Cycle c = Outcome.ok c' ∧
      c'.registers = c.registers ∧ c'.programCounter = c.programCounter := by
  have h := Cycle_no_case c hp (by omega) (by omega) (by omega) (by omega) (by omega)
    (by omega) (by omega)
  exact ⟨h, _, h, rfl, rfl⟩

/-- Witness for C15: `loadDemo` (`6A05` at 0x200). -/
theorem Cycle_load_byte_is_not_executed_witness :
    Cycle loadDemo = Outcome.ok
      { loadDemo with opcode := ⟨fetched loadDemo (by decide), fetched_lt _ _⟩ } ∧
    ∃ c', Cycle loadDemo = Outcome.ok c' ∧
      c'.registers = loadDemo.registers ∧ c'.programCounter = loadDemo.programCounter :=
  Cycle_load_byte_is_not_executed loadDemo 10 5 (by decide) (by decide) (by decide) (by decide)

/-- Counterexample to C15 as stated: `loadDemo` has `programCounter = 0x200` and
fetches `6A05`; its `Cycle` returns with `registers[10] = 0`, not 5, and with
`programCounter = 0x200`, not `0x202`. -/
theorem Cycle_load_byte_counterexample :
    loadDemo.programCounter.val = 0x200 ∧
    fetched loadDemo (by decide) = 0x6000 + 10 * 256 + 5 ∧
    ∃ c', Cycle loadDemo = Outcome.ok c' ∧
      (c'.registers 10).val = 0 ∧ (c'.registers 10).val ≠ 5 ∧
      c'.programCounter.val = 0x200 ∧
      c'.programCounter.val ≠ loadDemo.programCounter.val + 2 :=
  ⟨by decide, by decide, _, rfl, by decide, by decide, by decide, by decide⟩

/-! ## Invariants and frame of a step -/

theorem popStack_sp_le (c : Chip8) (c' : Chip8)
    (h : (popStack c).andThen (fun c1 => Outcome.ok (incrementPC c1)) = Outcome.ok c') :
    c'.sp.val < 16 := by
  unfold popStack at h
  dsimp only at h
  split at h
  · rename_i hlt
    simp only [Outcome.andThen, Outcome.ok.injEq] at h
    rw [← h]
    exact hlt
  · simp only [Outcome.andThen] at h
    cases h

theorem callSubroutine_sp_le (c : Chip8) (c' : Chip8)
    (h : callSubroutine c = Outcome.ok c') : c'.sp.val ≤ 16 := by
  unfold callSubroutine at h
  split at h
  · rename_i hlt
    simp only [Outcome.ok.injEq] at h
    rw [← h]
    show (toUint16 (c.sp.val + 1)).val ≤ 16
    rw [toUint16_val]; omega
  · cases h

theorem dispatch_sp_le (c c' : Chip8) (hsp : c.sp.val ≤ 16)
    (h : dispatch c = Outcome.ok c') : c'.sp.val ≤ 16 := by
  rcases dispatch_shape c with ⟨_, hd⟩ | ⟨_, hd⟩ | ⟨_, _, _, hd⟩ | ⟨_, hd⟩ | ⟨_, hd⟩ |
    ⟨_, hd | hd⟩ |
    ⟨_, _, _, _, _, _, _, hd⟩
  · rw [hd, Outcome.ok.injEq] at h; rw [← h]; exact hsp
  · rw [hd] at h; exact Nat.le_of_lt (popStack_sp_le c c' h)
  · rw [hd, Outcome.ok.injEq] at h; rw [← h]; exact hsp
  · rw [hd, Outcome.ok.injEq] at h; rw [← h]; exact hsp
  · rw [hd] at h; exact callSubroutine_sp_le c c' h
  · rw [hd, Outcome.ok.injEq] at h; rw [← h]; exact hsp
  · rw [hd, Outcome.ok.injEq] at h; rw [← h]; exact hsp
  · rw [hd, Outcome.ok.injEq] at h; rw [← h]; exact hsp

theorem Cycle_ok_fetch (c c' : Chip8) (h : Cycle c = Outcome.ok c') :
    c.programCounter.val ≤ 4094 := by
  by_contra hp
  unfold Cycle at h
  by_cases h0 : c.programCounter.val < 4096
  · have h1 : ¬ (toUint16 (c.programCounter.val + 1)).val < 4096 := by
      rw [toUint16_val]; omega
    rw [dif_pos h0, dif_neg h1] at h
    cases h
  · rw [dif_neg h0] at h
    cases h

theorem Cycle_sp_le (c c' : Chip8) (hsp : c.sp.val ≤ 16) (h : Cycle c = Outcome.ok c') :
    c'.sp.val ≤ 16 := by
  have hp := Cycle_ok_fetch c c' h
  rw [Cycle_eq_dispatch c hp] at h
  exact dispatch_sp_le { c with opcode := ⟨fetched c hp, fetched_lt c hp⟩ } c' hsp h

theorem runCycles_sp_le (n : Nat) : ∀ c c' : Chip8, c.sp.val ≤ 16 →
    runCycles n c = Outcome.ok c' → c'.sp.val ≤ 16 := by
  induction n with
  | zero =>
    intro c c' hsp h
    simp only [runCycles, Outcome.ok.injEq] at h
    rw [← h]; exact hsp
  | succ n ih =>
    intro c c' hsp h
    simp only [runCycles] at h
    cases hc : Cycle c with
    | ok c1 =>
      rw [hc] at h
      exact ih c1 c' (Cycle_sp_le c c1 hsp hc) h
    | panicked c1 e =>
      rw [hc] at h
      cases h

/-- C17: the stack pointer never exceeds 16.  From a state with `sp ≤ 16`, every
`Cycle` that returns yields a state with `sp ≤ 16`; hence every state reached
from `NewChip8`, with whatever program in memory, by any number of `Cycle`s that
all return has `sp ≤ 16`. -/
theorem stack_pointer_never_exceeds_16 :
    (∀ c c' : Chip8, c.sp.val ≤ 16 → Cycle c = Outcome.ok c' → c'.sp.val ≤ 16) ∧
    (∀ (mem : Fin 4096 → uint8) (n : Nat) (c' : Chip8),
      runCycles n { NewChip8 with memory := mem } = Outcome.ok c' → c'.sp.val ≤ 16) :=
  ⟨Cycle_sp_le, fun mem n c' h =>
    runCycles_sp_le n { NewChip8 with memory := mem } c' (Nat.zero_le 16) h⟩

/-- Witness for C17: `roundTripDemo` steps to `retDemo`, whose `sp` is 1; and two
cycles from the fresh machine loaded with the memory of `roundTripDemo` end
with `sp = 0`. -/
theorem stack_pointer_never_exceeds_16_witness :
    retDemo.sp.val ≤ 16 ∧
    ∃ c', runCycles 2 { NewChip8 with memory := roundTripDemo.memory } = Outcome.ok c' ∧
      c'.sp.val ≤ 16 :=
  ⟨stack_pointer_never_exceeds_16.1 roundTripDemo retDemo (by decide) rfl,
   _, rfl, stack_pointer_never_exceeds_16.2 roundTripDemo.memory 2 _ rfl⟩

/-- A `Cycle` writes neither memory, nor keys, nor a timer, whether it returns
or stops. -/
theorem Cycle_frame (c : Chip8) :
    (Cycle c).machine.memory = c.memory ∧
    (Cycle c).machine.delayTimer = c.delayTimer ∧
    (Cycle c).machine.soundTimer = c.soundTimer ∧
    (Cycle c).machine.keys = c.keys := by
  by_cases hp : c.programCounter.val ≤ 4094
  · rw [Cycle_eq_dispatch c hp]
    obtain ⟨_, hm, _, _, hd, hs, hk⟩ :=
      dispatch_frame { c with opcode := ⟨fetched c hp, fetched_lt c hp⟩ }
    exact ⟨hm, hd, hs, hk⟩
  · rw [Cycle_machine_of_not_fetch c hp]
    exact ⟨rfl, rfl, rfl, rfl⟩

/-- C18: for every machine state, whatever opcode it fetches, a `Cycle` that
returns leaves the 16 key flags unchanged, leaves `delayTimer` and `soundTimer`
at their previous values, and leaves the font bytes `memory[0x000..0x04F]`
unchanged. -/
theorem Cycle_leaves_keys_timers_font (c c' : Chip8) (h : Cycle c = Outcome.ok c') :
    (∀ k : Fin 16, c'.keys k = c.keys k) ∧
    c'.delayTimer = c.delayTimer ∧
    c'.soundTimer = c.soundTimer ∧
    (∀ i : Fin 4096, i.val < 0x50 → c'.memory i = c.memory i) := by
  obtain ⟨hm, hd, hs, hk⟩ := Cycle_frame c
  rw [h] at hm hd hs hk
  exact ⟨fun k => congrFun hk k, hd, hs, fun i _ => congrFun hm i⟩

/-- Witness for C18: the step from `roundTripDemo` to `retDemo`. -/
theorem Cycle_leaves_keys_timers_font_witness :
    (∀ k : Fin 16, retDemo.keys k = roundTripDemo.keys k) ∧
    retDemo.delayTimer = roundTripDemo.delayTimer ∧
    retDemo.soundTimer = roundTripDemo.soundTimer ∧
    (∀ i : Fin 4096, i.val < 0x50 → retDemo.memory i = roundTripDemo.memory i) :=
  Cycle_leaves_keys_timers_font roundTripDemo retDemo rfl

/-! ## Totality -/

theorem popStack_ok (c : Chip8) (hlo : 1 ≤ c.sp.val) (hhi : c.sp.val ≤ 16) :
    ∃ c', (popStack c).andThen (fun c1 => Outcome.ok (incrementPC c1)) = Outcome.ok c' := by
  have hs : (toUint16 (c.sp.val + 65536 - 1)).val < 16 := by
    rw [toUint16_val]; omega
  unfold popStack
  simp only [dif_pos hs, Outcome.andThen]
  exact ⟨_, rfl⟩

theorem callSubroutine_ok (c : Chip8) (hsp : c.sp.val < 16) :
    ∃ c', callSubroutine c = Outcome.ok c' := by
  unfold callSubroutine
  simp only [dif_pos hsp]
  exact ⟨_, rfl⟩

/-- C19: `Cycle` is total under its precondition.  From a state with
`programCounter ≤ 4094` that is neither about to execute `2nnn` with `sp ≥ 16`
nor about to execute `00EE` with `sp = 0` or `sp > 16`, one `Cycle` returns, with
no array indexed out of range; in particular both register indices decoded from
any opcode are below 16, and none of the four skip methods ever stops. -/
theorem Cycle_total_under_precondition :
    (∀ (c : Chip8) (hp : c.programCounter.val ≤ 4094),
      (fetched c hp / 4096 = 2 → c.sp.val < 16) →
      (fetched c hp = 0x00EE → 1 ≤ c.sp.val ∧ c.sp.val ≤ 16) →
      ∃ c', Cycle c = Outcome.ok c') ∧
    (∀ op : Nat, (op &&& 0x0F00) >>> 8 < 16 ∧ (op &&& 0x00F0) >>> 4 < 16) ∧
    (∀ c : Chip8, (∃ c', skipVxEqualByte c = Outcome.ok c') ∧
      (∃ c', skipVxNotEqualByte c = Outcome.ok c') ∧
      (∃ c', skipVxEqualVy c = Outcome.ok c') ∧
      (∃ c', skipVxNotEqualVy c = Outcome.ok c')) := by
  refine ⟨?_, fun op => ⟨decoded_x_lt op, decoded_y_lt op⟩, ?_⟩
  · intro c hp hcall hret
    rw [Cycle_eq_dispatch c hp]
    rcases dispatch_shape { c with opcode := ⟨fetched c hp, fetched_lt c hp⟩ } with
      ⟨_, hd⟩ | ⟨hop, hd⟩ | ⟨_, _, _, hd⟩ | ⟨_, hd⟩ | ⟨hop, hd⟩ | ⟨_, hd | hd⟩ |
      ⟨_, _, _, _, _, _, _, hd⟩
    · exact ⟨_, hd⟩
    · rw [hd]
      obtain ⟨hlo, hhi⟩ := hret hop
      exact popStack_ok { c with opcode := ⟨fetched c hp, fetched_lt c hp⟩ } hlo hhi
    · exact ⟨_, hd⟩
    · exact ⟨_, hd⟩
    · rw [hd]
      exact callSubroutine_ok { c with opcode := ⟨fetched c hp, fetched_lt c hp⟩ } (hcall hop)
    · exact ⟨_, hd⟩
    · exact ⟨_, hd⟩
    · exact ⟨_, hd⟩
  · intro c
    refine ⟨?_, ?_, ?_, ?_⟩
    · rcases skipVxEqualByte_shape c with h | h <;> exact ⟨_, h⟩
    · rcases skipVxNotEqualByte_shape c with h | h <;> exact ⟨_, h⟩
    · rcases skipVxEqualVy_shape c with h | h <;> exact ⟨_, h⟩
    · rcases skipVxNotEqualVy_shape c with h | h <;> exact ⟨_, h⟩

/-- Witness for C19: `callDemo` (CALL with an empty stack) and `retDemo` (RET with
`sp = 1`) both satisfy the precondition and return. -/
theorem Cycle_total_under_precondition_witness :
    (∃ c', Cycle callDemo = Outcome.ok c') ∧ (∃ c', Cycle retDemo = Outcome.ok c') :=
  ⟨Cycle_total_under_precondition.1 callDemo (by decide) (fun _ => by decide)
      (fun h => absurd h (by decide)),
   Cycle_total_under_precondition.1 retDemo (by decide) (fun _ => by decide)
      (fun _ => by decide)⟩

/-! ## The program counter after a step -/

theorem popStack_programCounter (c c' : Chip8)
    (h : (popStack c).andThen (fun c1 => Outcome.ok (incrementPC c1)) = Outcome.ok c') :
    ∃ s : Fin 16, s.val + 1 = c.sp.val ∧
      c'.programCounter.val = ((c.stack s).val + 2) % 65536 := by
  unfold popStack at h
  dsimp only at h
  split at h
  · rename_i hlt
    simp only [Outcome.andThen, Outcome.ok.injEq] at h
    refine ⟨⟨(toUint16 (c.sp.val + 65536 - 1)).val, hlt⟩, ?_, ?_⟩
    · have hsp := c.sp.isLt
      rw [toUint16_val] at hlt
      show (toUint16 (c.sp.val + 65536 - 1)).val + 1 = c.sp.val
      rw [toUint16_val]
      omega
    · rw [← h]
      rfl
  · simp only [Outcome.andThen] at h
    cases h

theorem callSubroutine_programCounter (c c' : Chip8)
    (h : callSubroutine c = Outcome.ok c') :
    c'.programCounter.val = c.opcode.val % 4096 := by
  unfold callSubroutine at h
  split at h
  · simp only [Outcome.ok.injEq] at h
    rw [← h]
    show (toUint16 (c.opcode.val &&& AddressBitMask)).val = _
    rw [toUint16_val, low_address]
    omega
  · cases h

theorem Cycle_SE_VX_BYTE (c : Chip8) (hp : c.programCounter.val ≤ 4094)
    (h3 : fetched c hp / 4096 = 3) :
    Cycle c = Outcome.ok (incrementPC
      (if (c.registers ⟨fetched c hp / 256 % 16, Nat.mod_lt _ (by decide)⟩).val
          = fetched c hp % 256
       then incrementPC { c with opcode := ⟨fetched c hp, fetched_lt c hp⟩ }
       else { c with opcode := ⟨fetched c hp, fetched_lt c hp⟩ })) :=
  ((Cycle_eq_dispatch c hp).trans
    (dispatch_SE_VX_BYTE { c with opcode := ⟨fetched c hp, fetched_lt c hp⟩ } h3)).trans
    (skipVxEqualByte_eq { c with opcode := ⟨fetched c hp, fetched_lt c hp⟩ } _ _
      (Nat.mod_lt _ (by decide)) rfl rfl)

theorem Cycle_SNE (c : Chip8) (hp : c.programCounter.val ≤ 4094)
    (h4 : fetched c hp / 4096 = 4) :
    Cycle c = Outcome.ok (incrementPC
      (if (c.registers ⟨fetched c hp / 256 % 16, Nat.mod_lt _ (by decide)⟩).val
          ≠ fetched c hp % 256
       then incrementPC { c with opcode := ⟨fetched c hp, fetched_lt c hp⟩ }
       else { c with opcode := ⟨fetched c hp, fetched_lt c hp⟩ })) :=
  ((Cycle_eq_dispatch c hp).trans
    (dispatch_SNE { c with opcode := ⟨fetched c hp, fetched_lt c hp⟩ } h4)).trans
    (skipVxNotEqualByte_eq { c with opcode := ⟨fetched c hp, fetched_lt c hp⟩ } _ _
      (Nat.mod_lt _ (by decide)) rfl rfl)

/-- The value of `programCounter` after a skip, by whether it is taken. -/
theorem skip_programCounter_cases (c : Chip8) (P : Prop) [Decidable P]
    (hp : c.programCounter.val ≤ 4094) :
    (P ∧ (incrementPC (if P then incrementPC c else c)).programCounter.val
        = c.programCounter.val + 4) ∨
    (¬ P ∧ (incrementPC (if P then incrementPC c else c)).programCounter.val
        = c.programCounter.val + 2) := by
  have h := skip_programCounter c P hp
  by_cases hP : P
  · simp only [if_pos hP] at h ⊢; exact Or.inl ⟨hP, h⟩
  · simp only [if_neg hP] at h ⊢; exact Or.inr ⟨hP, h⟩

/-- What a `Cycle` that returns leaves in `programCounter`, by opcode. -/
theorem Cycle_programCounter_cases (c c' : Chip8) (hp : c.programCounter.val ≤ 4094)
    (h : Cycle c = Outcome.ok c') :
    (fetched c hp / 4096 = 0 ∧ fetched c hp ≠ 0x00EE ∧
      c'.programCounter.val = c.programCounter.val + 2) ∨
    (fetched c hp = 0x00EE ∧ ∃ s : Fin 16, s.val + 1 = c.sp.val ∧
      c'.programCounter.val = ((c.stack s).val + 2) % 65536) ∨
    ((fetched c hp / 4096 = 1 ∨ fetched c hp / 4096 = 2) ∧
      c'.programCounter.val = fetched c hp % 4096) ∨
    (fetched c hp / 4096 = 3 ∧
      (((c.registers ⟨fetched c hp / 256 % 16, Nat.mod_lt _ (by decide)⟩).val
          = fetched c hp % 256 ∧ c'.programCounter.val = c.programCounter.val + 4) ∨
       (¬ (c.registers ⟨fetched c hp / 256 % 16, Nat.mod_lt _ (by decide)⟩).val
          = fetched c hp % 256 ∧ c'.programCounter.val = c.programCounter.val + 2))) ∨
    (fetched c hp / 4096 = 4 ∧
      (((c.registers ⟨fetched c hp / 256 % 16, Nat.mod_lt _ (by decide)⟩).val
          ≠ fetched c hp % 256 ∧ c'.programCounter.val = c.programCounter.val + 4) ∨
       (¬ (c.registers ⟨fetched c hp / 256 % 16, Nat.mod_lt _ (by decide)⟩).val
          ≠ fetched c hp % 256 ∧ c'.programCounter.val = c.programCounter.val + 2))) ∨
    (fetched c hp / 4096 = 5 ∧
      (((c.registers ⟨fetched c hp / 256 % 16, Nat.mod_lt _ (by decide)⟩).val
          = (c.registers ⟨fetched c hp / 16 % 16, Nat.mod_lt _ (by decide)⟩).val ∧
          c'.programCounter.val = c.programCounter.val + 4) ∨
       (¬ (c.registers ⟨fetched c hp / 256 % 16, Nat.mod_lt _ (by decide)⟩).val
          = (c.registers ⟨fetched c hp / 16 % 16, Nat.mod_lt _ (by decide)⟩).val ∧
          c'.programCounter.val = c.programCounter.val + 2))) ∨
    (fetched c hp / 4096 = 9 ∧
      (((c.registers ⟨fetched c hp / 256 % 16, Nat.mod_lt _ (by decide)⟩).val
          ≠ (c.registers ⟨fetched c hp / 16 % 16, Nat.mod_lt _ (by decide)⟩).val ∧
          c'.programCounter.val = c.programCounter.val + 4) ∨
       (¬ (c.registers ⟨fetched c hp / 256 % 16, Nat.mod_lt _ (by decide)⟩).val
          ≠ (c.registers ⟨fetched c hp / 16 % 16, Nat.mod_lt _ (by decide)⟩).val ∧
          c'.programCounter.val = c.programCounter.val + 2))) ∨
    (fetched c hp / 4096 ≠ 0 ∧ fetched c hp / 4096 ≠ 1 ∧ fetched c hp / 4096 ≠ 2 ∧
      fetched c hp / 4096 ≠ 3 ∧ fetched c hp / 4096 ≠ 4 ∧ fetched c hp / 4096 ≠ 5 ∧
      fetched c hp / 4096 ≠ 9 ∧ c'.programCounter.val = c.programCounter.val) := by
  by_cases h0 : fetched c hp / 4096 = 0
  · by_cases hret : fetched c hp = 0x00EE
    · refine Or.inr (Or.inl ⟨hret, ?_⟩)
      rw [Cycle_eq_dispatch c hp,
        dispatch_RET { c with opcode := ⟨fetched c hp, fetched_lt c hp⟩ } hret] at h
      exact popStack_programCounter { c with opcode := ⟨fetched c hp, fetched_lt c hp⟩ } c' h
    · refine Or.inl ⟨h0, hret, ?_⟩
      by_cases hcls : fetched c hp = 0x00E0
      · rw [Cycle_eq_dispatch c hp,
          dispatch_CLS { c with opcode := ⟨fetched c hp, fetched_lt c hp⟩ } hcls,
          clearScreen_eq, Outcome.ok.injEq] at h
        rw [← h]
        show (toUint16 (c.programCounter.val + 2)).val = _
        rw [toUint16_val]; omega
      · rw [Cycle_SYS_other c hp h0 hcls hret, Outcome.ok.injEq] at h
        rw [← h]
        show (toUint16 (c.programCounter.val + 2)).val = _
        rw [toUint16_val]; omega
  by_cases h1 : fetched c hp / 4096 = 1
  · refine Or.inr (Or.inr (Or.inl ⟨Or.inl h1, ?_⟩))
    rw [Cycle_eq_dispatch c hp,
      dispatch_JP { c with opcode := ⟨fetched c hp, fetched_lt c hp⟩ } h1,
      Outcome.ok.injEq] at h
    rw [← h]
    show (toUint16 (fetched c hp % 4096)).val = _
    rw [toUint16_val]; omega
  by_cases h2 : fetched c hp / 4096 = 2
  · refine Or.inr (Or.inr (Or.inl ⟨Or.inr h2, ?_⟩))
    rw [Cycle_eq_dispatch c hp,
      dispatch_CALL { c with opcode := ⟨fetched c hp, fetched_lt c hp⟩ } h2] at h
    exact callSubroutine_programCounter
      { c with opcode := ⟨fetched c hp, fetched_lt c hp⟩ } c' h
  by_cases h3 : fetched c hp / 4096 = 3
  · refine Or.inr (Or.inr (Or.inr (Or.inl ⟨h3, ?_⟩)))
    rw [Cycle_SE_VX_BYTE c hp h3, Outcome.ok.injEq] at h
    rw [← h]
    exact skip_programCounter_cases { c with opcode := ⟨fetched c hp, fetched_lt c hp⟩ } _ hp
  by_cases h4 : fetched c hp / 4096 = 4
  · refine Or.inr (Or.inr (Or.inr (Or.inr (Or.inl ⟨h4, ?_⟩))))
    rw [Cycle_SNE c hp h4, Outcome.ok.injEq] at h
    rw [← h]
    exact skip_programCounter_cases { c with opcode := ⟨fetched c hp, fetched_lt c hp⟩ } _ hp
  by_cases h5 : fetched c hp / 4096 = 5
  · refine Or.inr (Or.inr (Or.inr (Or.inr (Or.inr (Or.inl ⟨h5, ?_⟩)))))
    rw [Cycle_SE_VX_VY c hp h5, Outcome.ok.injEq] at h
    rw [← h]
    exact skip_programCounter_cases { c with opcode := ⟨fetched c hp, fetched_lt c hp⟩ } _ hp
  by_cases h9 : fetched c hp / 4096 = 9
  · refine Or.inr (Or.inr (Or.inr (Or.inr (Or.inr (Or.inr (Or.inl ⟨h9, ?_⟩))))))
    rw [Cycle_SNE_VX_VY c hp h9, Outcome.ok.injEq] at h
    rw [← h]
    exact skip_programCounter_cases { c with opcode := ⟨fetched c hp, fetched_lt c hp⟩ } _ hp
  refine Or.inr (Or.inr (Or.inr (Or.inr (Or.inr (Or.inr (Or.inr
    ⟨h0, h1, h2, h3, h4, h5, h9, ?_⟩))))))
  rw [Cycle_no_case c hp h0 h1 h2 h3 h4 h5 h9, Outcome.ok.injEq] at h
  rw [← h]

/-- C16 (as the code has it): from a state in which `programCounter = p` is even
and `≤ 4094`, consider a `Cycle` that returns.  Its `programCounter` is again even
in every case but two: a fetched `1nnn` or `2nnn` with odd `nnn`, and a fetched
`00EE` that pops an odd return address `stack[sp - 1]`.  It is again `≤ 4094` in
every case but these: a `1nnn` or `2nnn` with `nnn = 4095`; a `00EE` that pops an
address from 4093 to 65533 (the popped address plus 2 is taken mod 2^16); any
other `0nnn`, or a skip (leading nibble 3, 4, 5 or 9) that is not taken, fetched
at `p = 4094`; and a skip that is taken, fetched at `p > 4090`.  Both halves are
equivalences: the property holds exactly when none of the listed cases occurs. -/
theorem Cycle_keeps_programCounter_even_in_range (c c' : Chip8)
    (hp : c.programCounter.val ≤ 4094) (hev : c.programCounter.val % 2 = 0)
    (h : Cycle c = Outcome.ok c') :
    (c'.programCounter.val % 2 = 0 ↔
      (fetched c hp / 4096 = 1 ∨ fetched c hp / 4096 = 2 → fetched c hp % 2 = 0) ∧
      (fetched c hp = 0x00EE → ∀ s : Fin 16, s.val + 1 = c.sp.val →
        (c.stack s).val % 2 = 0)) ∧
    (c'.programCounter.val ≤ 4094 ↔
      (fetched c hp / 4096 = 1 ∨ fetched c hp / 4096 = 2 → fetched c hp % 4096 ≤ 4094) ∧
      (fetched c hp = 0x00EE → ∀ s : Fin 16, s.val + 1 = c.sp.val →
        (c.stack s).val ≤ 4092 ∨ 65534 ≤ (c.stack s).val) ∧
      ((fetched c hp / 4096 = 0 ∧ fetched c hp ≠ 0x00EE) ∨ fetched c hp / 4096 = 3 ∨
          fetched c hp / 4096 = 4 ∨ fetched c hp / 4096 = 5 ∨ fetched c hp / 4096 = 9 →
        c.programCounter.val ≤ 4092) ∧
      (fetched c hp / 4096 = 3 →
        (c.registers ⟨fetched c hp / 256 % 16, Nat.mod_lt _ (by decide)⟩).val
          = fetched c hp % 256 →
        c.programCounter.val ≤ 4090) ∧
      (fetched c hp / 4096 = 4 →
        (c.registers ⟨fetched c hp / 256 % 16, Nat.mod_lt _ (by decide)⟩).val
          ≠ fetched c hp % 256 →
        c.programCounter.val ≤ 4090) ∧
      (fetched c hp / 4096 = 5 →
        (c.registers ⟨fetched c hp / 256 % 16, Nat.mod_lt _ (by decide)⟩).val
          = (c.registers ⟨fetched c hp / 16 % 16, Nat.mod_lt _ (by decide)⟩).val →
        c.programCounter.val ≤ 4090) ∧
      (fetched c hp / 4096 = 9 →
        (c.registers ⟨fetched c hp / 256 % 16, Nat.mod_lt _ (by decide)⟩).val
          ≠ (c.registers ⟨fetched c hp / 16 % 16, Nat.mod_lt _ (by decide)⟩).val →
        c.programCounter.val ≤ 4090)) := by
  have hlt := fetched_lt c hp
  have hcases := Cycle_programCounter_cases c c' hp h
  generalize hR1 : (fetched c hp = 0x00EE → ∀ s : Fin 16, s.val + 1 = c.sp.val →
    (c.stack s).val % 2 = 0) = R1
  generalize hR2 : (fetched c hp = 0x00EE → ∀ s : Fin 16, s.val + 1 = c.sp.val →
    (c.stack s).val ≤ 4092 ∨ 65534 ≤ (c.stack s).val) = R2
  have hno : fetched c hp ≠ 0x00EE → R1 ∧ R2 := by
    intro hne
    rw [← hR1, ← hR2]
    exact ⟨fun hr => absurd hr hne, fun hr => absurd hr hne⟩
  have hyes : ∀ s0 : Fin 16, fetched c hp = 0x00EE → s0.val + 1 = c.sp.val →
      (R1 ↔ (c.stack s0).val % 2 = 0) ∧
      (R2 ↔ ((c.stack s0).val ≤ 4092 ∨ 65534 ≤ (c.stack s0).val)) := by
    intro s0 hret hs0
    have huniq : ∀ s : Fin 16, s.val + 1 = c.sp.val → s = s0 :=
      fun s hs => Fin.ext (by omega)
    rw [← hR1, ← hR2]
    exact ⟨⟨fun H => H hret s0 hs0, fun H _ s hs => by rw [huniq s hs]; exact H⟩,
      ⟨fun H => H hret s0 hs0, fun H _ s hs => by rw [huniq s hs]; exact H⟩⟩
  clear hR1 hR2 h
  rcases hcases with ⟨h0, hne, hpc⟩ | ⟨hret, s0, hs0, hpc⟩ | ⟨h12, hpc⟩ |
    ⟨h3, ⟨hP, hpc⟩ | ⟨hP, hpc⟩⟩ | ⟨h4, ⟨hP, hpc⟩ | ⟨hP, hpc⟩⟩ |
    ⟨h5, ⟨hP, hpc⟩ | ⟨hP, hpc⟩⟩ | ⟨h9, ⟨hP, hpc⟩ | ⟨hP, hpc⟩⟩ |
    ⟨n0, n1, n2, n3, n4, n5, n9, hpc⟩
  · obtain ⟨r1, r2⟩ := hno hne
    clear hno hyes
    simp only [r1, r2, and_true, true_and]
    generalize (c.registers ⟨fetched c hp / 256 % 16, Nat.mod_lt _ (by decide)⟩).val = vx at *
    generalize (c.registers ⟨fetched c hp / 16 % 16, Nat.mod_lt _ (by decide)⟩).val = vy at *
    generalize fetched c hp / 4096 = nib at *
    generalize fetched c hp = f at *
    generalize c.programCounter.val = p at *
    generalize c'.programCounter.val = q at *
    subst h0
    simp [hne]
    omega
  · obtain ⟨e1, e2⟩ := hyes s0 hret hs0
    have hb := (c.stack s0).isLt
    have h0 : fetched c hp / 4096 = 0 := by rw [hret]
    clear hno hyes hs0
    rw [e1, e2]
    clear e1 e2
    generalize (c.registers ⟨fetched c hp / 256 % 16, Nat.mod_lt _ (by decide)⟩).val = vx at *
    generalize (c.registers ⟨fetched c hp / 16 % 16, Nat.mod_lt _ (by decide)⟩).val = vy at *
    generalize (c.stack s0).val = v at *
    generalize fetched c hp / 4096 = nib at *
    generalize fetched c hp = f at *
    generalize c.programCounter.val = p at *
    generalize c'.programCounter.val = q at *
    subst h0
    subst hret
    simp
    omega
  · have hne : fetched c hp ≠ 0x00EE := by omega
    obtain ⟨r1, r2⟩ := hno hne
    clear hno hyes hne
    simp only [r1, r2, and_true, true_and]
    generalize (c.registers ⟨fetched c hp / 256 % 16, Nat.mod_lt _ (by decide)⟩).val = vx at *
    generalize (c.registers ⟨fetched c hp / 16 % 16, Nat.mod_lt _ (by decide)⟩).val = vy at *
    generalize fetched c hp / 4096 = nib at *
    generalize fetched c hp = f at *
    generalize c.programCounter.val = p at *
    generalize c'.programCounter.val = q at *
    rcases h12 with h1 | h2
    · subst h1
      simp
      omega
    · subst h2
      simp
      omega
  · have hne : fetched c hp ≠ 0x00EE := by omega
    obtain ⟨r1, r2⟩ := hno hne
    clear hno hyes hne
    simp only [r1, r2, and_true, true_and]
    generalize (c.registers ⟨fetched c hp / 256 % 16, Nat.mod_lt _ (by decide)⟩).val = vx at *
    generalize (c.registers ⟨fetched c hp / 16 % 16, Nat.mod_lt _ (by decide)⟩).val = vy at *
    generalize fetched c hp / 4096 = nib at *
    generalize fetched c hp = f at *
    generalize c.programCounter.val = p at *
    generalize c'.programCounter.val = q at *
    subst h3
    simp [hP]
    omega
  · have hne : fetched c hp ≠ 0x00EE := by omega
    obtain ⟨r1, r2⟩ := hno hne
    clear hno hyes hne
    simp only [r1, r2, and_true, true_and]
    generalize (c.registers ⟨fetched c hp / 256 % 16, Nat.mod_lt _ (by decide)⟩).val = vx at *
    generalize (c.registers ⟨fetched c hp / 16 % 16, Nat.mod_lt _ (by decide)⟩).val = vy at *
    generalize fetched c hp / 4096 = nib at *
    generalize fetched c hp = f at *
    generalize c.programCounter.val = p at *
    generalize c'.programCounter.val = q at *
    subst h3
    simp [hP]
    omega
  · have hne : fetched c hp ≠ 0x00EE := by omega
    obtain ⟨r1, r2⟩ := hno hne
    clear hno hyes hne
    simp only [r1, r2, and_true, true_and]
    generalize (c.registers ⟨fetched c hp / 256 % 16, Nat.mod_lt _ (by decide)⟩).val = vx at *
    generalize (c.registers ⟨fetched c hp / 16 % 16, Nat.mod_lt _ (by decide)⟩).val = vy at *
    generalize fetched c hp / 4096 = nib at *
    generalize fetched c hp = f at *
    generalize c.programCounter.val = p at *
    generalize c'.programCounter.val = q at *
    subst h4
    simp [hP]
    omega
  · have hne : fetched c hp ≠ 0x00EE := by omega
    obtain ⟨r1, r2⟩ := hno hne
    clear hno hyes hne
    simp only [r1, r2, and_true, true_and]
    generalize (c.registers ⟨fetched c hp / 256 % 16, Nat.mod_lt _ (by decide)⟩).val = vx at *
    generalize (c.registers ⟨fetched c hp / 16 % 16, Nat.mod_lt _ (by decide)⟩).val = vy at *
    generalize fetched c hp / 4096 = nib at *
    generalize fetched c hp = f at *
    generalize c.programCounter.val = p at *
    generalize c'.programCounter.val = q at *
    subst h4
    simp [hP]
    omega
  · have hne : fetched c hp ≠ 0x00EE := by omega
    obtain ⟨r1, r2⟩ := hno hne
    clear hno hyes hne
    simp only [r1, r2, and_true, true_and]
    generalize (c.registers ⟨fetched c hp / 256 % 16, Nat.mod_lt _ (by decide)⟩).val = vx at *
    generalize (c.registers ⟨fetched c hp / 16 % 16, Nat.mod_lt _ (by decide)⟩).val = vy at *
    generalize fetched c hp / 4096 = nib at *
    generalize fetched c hp = f at *
    generalize c.programCounter.val = p at *
    generalize c'.programCounter.val = q at *
    subst h5
    simp [hP]
    omega
  · have hne : fetched c hp ≠ 0x00EE := by omega
    obtain ⟨r1, r2⟩ := hno hne
    clear hno hyes hne
    simp only [r1, r2, and_true, true_and]
    generalize (c.registers ⟨fetched c hp / 256 % 16, Nat.mod_lt _ (by decide)⟩).val = vx at *
    generalize (c.registers ⟨fetched c hp / 16 % 16, Nat.mod_lt _ (by decide)⟩).val = vy at *
    generalize fetched c hp / 4096 = nib at *
    generalize fetched c hp = f at *
    generalize c.programCounter.val = p at *
    generalize c'.programCounter.val = q at *
    subst h5
    simp [hP]
    omega
  · have hne : fetched c hp ≠ 0x00EE := by omega
    obtain ⟨r1, r2⟩ := hno hne
    clear hno hyes hne
    simp only [r1, r2, and_true, true_and]
    generalize (c.registers ⟨fetched c hp / 256 % 16, Nat.mod_lt _ (by decide)⟩).val = vx at *
    generalize (c.registers ⟨fetched c hp / 16 % 16, Nat.mod_lt _ (by decide)⟩).val = vy at *
    generalize fetched c hp / 4096 = nib at *
    generalize fetched c hp = f at *
    generalize c.programCounter.val = p at *
    generalize c'.programCounter.val = q at *
    subst h9
    simp [hP]
    omega
  · have hne : fetched c hp ≠ 0x00EE := by omega
    obtain ⟨r1, r2⟩ := hno hne
    clear hno hyes hne
    simp only [r1, r2, and_true, true_and]
    generalize (c.registers ⟨fetched c hp / 256 % 16, Nat.mod_lt _ (by decide)⟩).val = vx at *
    generalize (c.registers ⟨fetched c hp / 16 % 16, Nat.mod_lt _ (by decide)⟩).val = vy at *
    generalize fetched c hp / 4096 = nib at *
    generalize fetched c hp = f at *
    generalize c.programCounter.val = p at *
    generalize c'.programCounter.val = q at *
    subst h9
    simp [hP]
    omega
  · have hne : fetched c hp ≠ 0x00EE := by omega
    obtain ⟨r1, r2⟩ := hno hne
    clear hno hyes hne
    simp only [r1, r2, and_true, true_and]
    generalize (c.registers ⟨fetched c hp / 256 % 16, Nat.mod_lt _ (by decide)⟩).val = vx at *
    generalize (c.registers ⟨fetched c hp / 16 % 16, Nat.mod_lt _ (by decide)⟩).val = vy at *
    generalize fetched c hp / 4096 = nib at *
    generalize fetched c hp = f at *
    generalize c.programCounter.val = p at *
    generalize c'.programCounter.val = q at *
    simp [n0, n1, n2, n3, n4, n5, n9]
    omega

/-- Witness for C16: `notTakenDemo` fetches `3001` at 4092 with V0 = 0; the skip
is not taken and its `Cycle` returns with `programCounter = 4094`, even and in
range. -/
theorem Cycle_keeps_programCounter_even_in_range_witness :
    ({ notTakenDemo with opcode := 0x3001, programCounter := 4094 } : Chip8).programCounter.val
        % 2 = 0 ∧
    ({ notTakenDemo with opcode := 0x3001, programCounter := 4094 } : Chip8).programCounter.val
        ≤ 4094 :=
  have t := Cycle_keeps_programCounter_even_in_range notTakenDemo
    { notTakenDemo with opcode := 0x3001, programCounter := 4094 } (by decide) (by decide) rfl
  ⟨t.1.mpr ⟨fun h => absurd h (by decide), fun h => absurd h (by decide)⟩,
   t.2.mpr ⟨fun h => absurd h (by decide), fun h => absurd h (by decide), fun _ => by decide,
     fun _ h => absurd h (by decide), fun h => absurd h (by decide),
     fun h => absurd h (by decide), fun h => absurd h (by decide)⟩⟩

/-- Counterexample to C16 as stated: `oddJumpDemo` (a fresh machine with `1201` at
0x200) has `programCounter = 0x200`, even and `≤ 4094`, and its `Cycle` returns
with `programCounter = 0x201`, which is odd; `lastWordDemo`, about to execute
`3000` at 4094, returns with `programCounter = 4098`, which is above 4094. -/
theorem Cycle_programCounter_invariant_counterexample :
    (oddJumpDemo.programCounter.val % 2 = 0 ∧ oddJumpDemo.programCounter.val ≤ 4094 ∧
      ∃ c', Cycle oddJumpDemo = Outcome.ok c' ∧ c'.programCounter.val = 0x201 ∧
        c'.programCounter.val % 2 ≠ 0) ∧
    (lastWordDemo.programCounter.val % 2 = 0 ∧ lastWordDemo.programCounter.val ≤ 4094 ∧
      ∃ c', Cycle lastWordDemo = Outcome.ok c' ∧ c'.programCounter.val = 4098 ∧
        ¬ (4098 : Nat) ≤ 4094) :=
  ⟨⟨by decide, by decide, _, rfl, by decide, by decide⟩,
   ⟨by decide, by decide, _, rfl, rfl, by decide⟩⟩

/-! ## The trailing nibble of the register-compare skips -/

theorem Cycle_SE_VX_VY_at (c : Chip8) (x y : Nat) (hp : c.programCounter.val ≤ 4094)
    (hx : x < 16) (hy : y < 16) (h5 : fetched c hp / 4096 = 5)
    (hxv : fetched c hp / 256 % 16 = x) (hyv : fetched c hp / 16 % 16 = y) :
    Cycle c = Outcome.ok (incrementPC
      (if (c.registers ⟨x, hx⟩).val = (c.registers ⟨y, hy⟩).val
       then incrementPC { c with opcode := ⟨fetched c hp, fetched_lt c hp⟩ }
       else { c with opcode := ⟨fetched c hp, fetched_lt c hp⟩ })) :=
  ((Cycle_eq_dispatch c hp).trans
    (dispatch_SE_VX_VY { c with opcode := ⟨fetched c hp, fetched_lt c hp⟩ } h5)).trans
    (skipVxEqualVy_eq { c with opcode := ⟨fetched c hp, fetched_lt c hp⟩ } x y hx hy hxv hyv)

theorem Cycle_SNE_VX_VY_at (c : Chip8) (x y : Nat) (hp : c.programCounter.val ≤ 4094)
    (hx : x < 16) (hy : y < 16) (h9 : fetched c hp / 4096 = 9)
    (hxv : fetched c hp / 256 % 16 = x) (hyv : fetched c hp / 16 % 16 = y) :
    Cycle c = Outcome.ok (incrementPC
      (if (c.registers ⟨x, hx⟩).val ≠ (c.registers ⟨y, hy⟩).val
       then incrementPC { c with opcode := ⟨fetched c hp, fetched_lt c hp⟩ }
       else { c with opcode := ⟨fetched c hp, fetched_lt c hp⟩ })) :=
  ((Cycle_eq_dispatch c hp).trans
    (dispatch_SNE_VX_VY { c with opcode := ⟨fetched c hp, fetched_lt c hp⟩ } h9)).trans
    (skipVxNotEqualVy_eq { c with opcode := ⟨fetched c hp, fetched_lt c hp⟩ } x y hx hy hxv hyv)

/-- Two machines that differ in nothing but memory and the opcode latch, stepped
by the same skip decision, still differ in nothing else. -/
theorem skip_same_result (c : Chip8) (m0 : Fin 4096 → uint8) (o o0 : uint16)
    (P : Prop) [Decidable P] :
    (incrementPC (if P then incrementPC { c with opcode := o } else { c with opcode := o })).programCounter
      = (incrementPC (if P then incrementPC { c with memory := m0, opcode := o0 }
          else { c with memory := m0, opcode := o0 })).programCounter := by
  by_cases h : P
  · rw [if_pos h, if_pos h]; rfl
  · rw [if_neg h, if_neg h]; rfl

/-- C20: the register-compare skips ignore the trailing nibble.  Take a state `c`
with `programCounter = p ≤ 4094` that fetches `5xyn`, and the state `c0` that
differs from it only in memory (and in the stale `opcode` field) and fetches
`5xy0`.  Their `Cycle`s both return, with the same `programCounter` (`p + 4` if
`registers[x] = registers[y]`, else `p + 2`) and with registers, `index`, stack,
`sp`, display, timers and keys unchanged in both; memory is left as each had it.
Likewise for `9xyn` and `9xy0`, skipping when the registers differ. -/
theorem skips_ignore_trailing_nibble (c : Chip8) (m0 : Fin 4096 → uint8) (o0 : uint16)
    (x y n : Nat) (hp : c.programCounter.val ≤ 4094)
    (hx : x < 16) (hy : y < 16) (hn : n < 16) :
    (fetched c hp = 0x5000 + x * 256 + y * 16 + n →
      fetched { c with memory := m0, opcode := o0 } hp = 0x5000 + x * 256 + y * 16 →
      ∃ c' c0', Cycle c = Outcome.ok c' ∧
        Cycle { c with memory := m0, opcode := o0 } = Outcome.ok c0' ∧
        c'.programCounter = c0'.programCounter ∧
        c'.programCounter.val =
          (if (c.registers ⟨x, hx⟩).val = (c.registers ⟨y, hy⟩).val
           then c.programCounter.val + 4 else c.programCounter.val + 2) ∧
        (c'.registers = c.registers ∧ c'.index = c.index ∧ c'.stack = c.stack ∧
          c'.sp = c.sp ∧ c'.graphics = c.graphics ∧ c'.delayTimer = c.delayTimer ∧
          c'.soundTimer = c.soundTimer ∧ c'.keys = c.keys ∧ c'.memory = c.memory) ∧
        (c0'.registers = c.registers ∧ c0'.index = c.index ∧ c0'.stack = c.stack ∧
          c0'.sp = c.sp ∧ c0'.graphics = c.graphics ∧ c0'.delayTimer = c.delayTimer ∧
          c0'.soundTimer = c.soundTimer ∧ c0'.keys = c.keys ∧ c0'.memory = m0)) ∧
    (fetched c hp = 0x9000 + x * 256 + y * 16 + n →
      fetched { c with memory := m0, opcode := o0 } hp = 0x9000 + x * 256 + y * 16 →
      ∃ c' c0', Cycle c = Outcome.ok c' ∧
        Cycle { c with memory := m0, opcode := o0 } = Outcome.ok c0' ∧
        c'.programCounter = c0'.programCounter ∧
        c'.programCounter.val =
          (if (c.registers ⟨x, hx⟩).val ≠ (c.registers ⟨y, hy⟩).val
           then c.programCounter.val + 4 else c.programCounter.val + 2) ∧
        (c'.registers = c.registers ∧ c'.index = c.index ∧ c'.stack = c.stack ∧
          c'.sp = c.sp ∧ c'.graphics = c.graphics ∧ c'.delayTimer = c.delayTimer ∧
          c'.soundTimer = c.soundTimer ∧ c'.keys = c.keys ∧ c'.memory = c.memory) ∧
        (c0'.registers = c.registers ∧ c0'.index = c.index ∧ c0'.stack = c.stack ∧
          c0'.sp = c.sp ∧ c0'.graphics = c.graphics ∧ c0'.delayTimer = c.delayTimer ∧
          c0'.soundTimer = c.soundTimer ∧ c0'.keys = c.keys ∧ c0'.memory = m0)) := by
  constructor
  · intro hop hop0
    have h1 := Cycle_SE_VX_VY_at c x y hp hx hy (by omega) (by omega) (by omega)
    have h2 := Cycle_SE_VX_VY_at { c with memory := m0, opcode := o0 } x y hp hx hy
      (by omega) (by omega) (by omega)
    obtain ⟨f2, f1, f3, f4, f5, f6, f7, f8, f9⟩ :=
      skip_frame { c with opcode := ⟨fetched c hp, fetched_lt c hp⟩ }
        ((c.registers ⟨x, hx⟩).val = (c.registers ⟨y, hy⟩).val)
    obtain ⟨g2, g1, g3, g4, g5, g6, g7, g8, g9⟩ :=
      skip_frame { c with memory := m0,
                          opcode := ⟨fetched { c with memory := m0, opcode := o0 } hp,
                            fetched_lt { c with memory := m0, opcode := o0 } hp⟩ }
        ((c.registers ⟨x, hx⟩).val = (c.registers ⟨y, hy⟩).val)
    exact ⟨_, _, h1, h2, skip_same_result c m0 _ _ _,
      skip_programCounter { c with opcode := ⟨fetched c hp, fetched_lt c hp⟩ } _ hp,
      ⟨f1, f3, f4, f5, f6, f7, f8, f9, f2⟩, ⟨g1, g3, g4, g5, g6, g7, g8, g9, g2⟩⟩
  · intro hop hop0
    have h1 := Cycle_SNE_VX_VY_at c x y hp hx hy (by omega) (by omega) (by omega)
    have h2 := Cycle_SNE_VX_VY_at { c with memory := m0, opcode := o0 } x y hp hx hy
      (by omega) (by omega) (by omega)
    obtain ⟨f2, f1, f3, f4, f5, f6, f7, f8, f9⟩ :=
      skip_frame { c with opcode := ⟨fetched c hp, fetched_lt c hp⟩ }
        ((c.registers ⟨x, hx⟩).val ≠ (c.registers ⟨y, hy⟩).val)
    obtain ⟨g2, g1, g3, g4, g5, g6, g7, g8, g9⟩ :=
      skip_frame { c with memory := m0,
                          opcode := ⟨fetched { c with memory := m0, opcode := o0 } hp,
                            fetched_lt { c with memory := m0, opcode := o0 } hp⟩ }
        ((c.registers ⟨x, hx⟩).val ≠ (c.registers ⟨y, hy⟩).val)
    exact ⟨_, _, h1, h2, skip_same_result c m0 _ _ _,
      skip_programCounter { c with opcode := ⟨fetched c hp, fetched_lt c hp⟩ } _ hp,
      ⟨f1, f3, f4, f5, f6, f7, f8, f9, f2⟩, ⟨g1, g3, g4, g5, g6, g7, g8, g9, g2⟩⟩

/-- Witness for C20: `skipEqRegNibbleDemo` (`5331`) against the same machine with
the memory of `skipEqRegDemo` (`5330`), and `skipNeRegNibbleDemo` (`9127`)
against the same machine with the memory of `skipNeRegDemo` (`9120`). -/
theorem skips_ignore_trailing_nibble_witness :
    (∃ c' c0', Cycle skipEqRegNibbleDemo = Outcome.ok c' ∧
      Cycle { skipEqRegNibbleDemo with memory := skipEqRegDemo.memory, opcode := 0 }
        = Outcome.ok c0' ∧
      c'.programCounter = c0'.programCounter) ∧
    (∃ c' c0', Cycle skipNeRegNibbleDemo = Outcome.ok c' ∧
      Cycle { skipNeRegNibbleDemo with memory := skipNeRegDemo.memory, opcode := 0 }
        = Outcome.ok c0' ∧
      c'.programCounter = c0'.programCounter) := by
  obtain ⟨a, a0, ha, ha0, hpa, _⟩ :=
    (skips_ignore_trailing_nibble skipEqRegNibbleDemo skipEqRegDemo.memory 0 3 3 1
      (by decide) (by decide) (by decide) (by decide)).1 (by decide) (by decide)
  obtain ⟨b, b0, hb, hb0, hpb, _⟩ :=
    (skips_ignore_trailing_nibble skipNeRegNibbleDemo skipNeRegDemo.memory 0 1 2 7
      (by decide) (by decide) (by decide) (by decide)).2 (by decide) (by decide)
  exact ⟨⟨a, a0, ha, ha0, hpa⟩, ⟨b, b0, hb, hb0, hpb⟩⟩

end chip8
